import Mathlib

/-!
Shallow embedding of the simulation core of the LD57 "frames" puzzle platformer
(`src/game/world.cpp`).  C++ `int` coordinates are modelled as `Int`
(all arithmetic in the embedded slice stays far from 32-bit overflow),
C++ `float` quantities are modelled as `ℚ` with the source's literal constants,
and code that throws (`InitEntityFromSpecificFrame`) or terminates the process
(`std::exit`) is modelled with `Except`/`Option`.
-/

namespace LD57

/-- Tile edge length in pixels (`tile_size` in world.cpp). -/
def tile_size : Int := 16

/-- `ivec2`: integer pixel vector. -/
structure IVec2 where
  x : Int
  y : Int
deriving DecidableEq, Repr

instance : Inhabited IVec2 := ⟨⟨0, 0⟩⟩

instance : Add IVec2 := ⟨fun a b => ⟨a.x + b.x, a.y + b.y⟩⟩
instance : Sub IVec2 := ⟨fun a b => ⟨a.x - b.x, a.y - b.y⟩⟩

/-- Componentwise scalar multiplication, `v * s` for `ivec2 v; int s`. -/
def IVec2.scale (v : IVec2) (s : Int) : IVec2 := ⟨v.x * s, v.y * s⟩

/-- Componentwise truncating division (C++ `/` on `int` truncates toward zero). -/
def IVec2.tdivScalar (v : IVec2) (s : Int) : IVec2 := ⟨v.x.tdiv s, v.y.tdiv s⟩

/-- `fvec2`: float vector, modelled over `ℚ`. -/
structure FVec2 where
  x : ℚ
  y : ℚ
deriving DecidableEq, Repr

instance : Inhabited FVec2 := ⟨⟨0, 0⟩⟩
instance : Add FVec2 := ⟨fun a b => ⟨a.x + b.x, a.y + b.y⟩⟩
instance : Sub FVec2 := ⟨fun a b => ⟨a.x - b.x, a.y - b.y⟩⟩

/-- `std::round` on a float value: rounds to nearest, halves away from zero. -/
def cround (q : ℚ) : Int :=
  if 0 ≤ q then ⌊q + 1/2⌋ else -⌊-q + 1/2⌋

/-- Componentwise `std::round` of a float vector (`.map(EM_FUNC(std::round)).to<int>()`). -/
def croundVec (v : FVec2) : IVec2 := ⟨cround v.x, cround v.y⟩

/-- Axis selector: `v[vert]` in the source, `false` = x, `true` = y. -/
def IVec2.comp (v : IVec2) (vert : Bool) : Int := if vert then v.y else v.x

/-- Setting a single component of an integer vector. -/
def IVec2.setComp (v : IVec2) (vert : Bool) (c : Int) : IVec2 :=
  if vert then ⟨v.x, c⟩ else ⟨c, v.y⟩

/-- Axis selector for float vectors. -/
def FVec2.comp (v : FVec2) (vert : Bool) : ℚ := if vert then v.y else v.x

/-- Setting a single component of a float vector. -/
def FVec2.setComp (v : FVec2) (vert : Bool) (c : ℚ) : FVec2 :=
  if vert then ⟨v.x, c⟩ else ⟨c, v.y⟩

/-- `screen_size = ivec2(1920, 1080) / 4` (main.h). -/
def screen_size : IVec2 := ⟨480, 270⟩

/-- `FrameType`: immutable tile-grid template shared by frames. -/
structure FrameType where
  tex_pos : IVec2
  tiles : List String
deriving DecidableEq, Repr

instance : Inhabited FrameType := ⟨⟨⟨0, 0⟩, []⟩⟩

/-- `FrameType::TileSize`: grid size in tiles; `(0,0)` for an empty grid,
otherwise (first row length, number of rows). -/
def FrameType.TileSize (t : FrameType) : IVec2 :=
  match t.tiles with
  | [] => ⟨0, 0⟩
  | r :: _ => ⟨(r.length : Int), (t.tiles.length : Int)⟩

/-- `FrameType::PixelSize`: tile size times the tile edge length. -/
def FrameType.PixelSize (t : FrameType) : IVec2 :=
  t.TileSize.scale tile_size

/-- `FrameType::GetTopLeftCorner`: centered box around a placement position. -/
def FrameType.GetTopLeftCorner (t : FrameType) (pos : IVec2) : IVec2 :=
  pos - t.PixelSize.tdivScalar 2

/-- Character of the grid at tile coordinates, if in range
(`tiles.at(y).at(x)` in the source). -/
def FrameType.charAt (t : FrameType) (cx cy : Int) : Option Char :=
  (t.tiles.get? cy.toNat).bind fun row => row.toList.get? cx.toNat

/-- The `SpawnedEntity` enum. -/
inductive SpawnedEntity where
  | none
  | player
  | exit
  | key
deriving DecidableEq, Repr

/-- A placed `Frame` instance.  The shared immutable template pointer is
embedded by value. -/
structure Frame where
  type : FrameType
  pos : IVec2
  hovered : Bool
  hover_time : ℚ
  dragged : Bool
  drag_offset_relative_to_mouse : IVec2
  spawned_entity_types : List SpawnedEntity
  aabb_overlaps_player : Bool
  player_is_under_this_frame : Bool
  exit_pos : Option IVec2
  key_positions : List IVec2
deriving DecidableEq, Repr

instance : Inhabited Frame :=
  ⟨⟨default, default, false, 0, false, default, [], false, false, Option.none, []⟩⟩

/-- The `Frame(type, pos, spawned_entity_types)` constructor: every other field
starts at its default. -/
def mkFrame (t : FrameType) (pos : IVec2) (sp : List SpawnedEntity) : Frame :=
  ⟨t, pos, false, 0, false, ⟨0, 0⟩, sp, false, false, Option.none, []⟩

/-- `Frame::TopLeftCorner`. -/
def Frame.TopLeftCorner (f : Frame) : IVec2 :=
  f.type.GetTopLeftCorner f.pos

/-- `Frame::PixelSize`. -/
def Frame.PixelSize (f : Frame) : IVec2 :=
  f.type.PixelSize

/-- `Frame::WorldPixelIsInRect`: half-open AABB membership test. -/
def Frame.WorldPixelIsInRect (f : Frame) (pixel : IVec2) : Bool :=
  let a := f.TopLeftCorner
  let b := a + f.PixelSize
  pixel.x ≥ a.x && pixel.y ≥ a.y && pixel.x < b.x && pixel.y < b.y

/-- The tile coordinate a world pixel maps to inside a frame
(`(pixel - TopLeftCorner()) / tile_size`). -/
def Frame.tileCoord (f : Frame) (pixel : IVec2) : IVec2 :=
  (pixel - f.TopLeftCorner).tdivScalar tile_size

/-- `Frame::QueryWorldPixel`: `-1` = not in AABB, `0` = not solid, `1` = solid.
The second `-1` branch is the defensive `assert(false)` branch of the source;
a missing grid character (only reachable on a ragged grid) reads as not solid. -/
def Frame.QueryWorldPixel (f : Frame) (pixel : IVec2) : Int :=
  if !(f.WorldPixelIsInRect pixel) then -1
  else
    let coord := f.tileCoord pixel
    let num_tiles := f.type.TileSize
    if coord.x < 0 || coord.y < 0 || coord.x ≥ num_tiles.x || coord.y ≥ num_tiles.y then -1
    else if f.type.charAt coord.x coord.y = some '#' then 1 else 0

/-- Whether `QueryWorldPixel` would reach the defensive assertion branch at a
pixel: the rectangle check passed but the derived tile coordinate is outside
the tile grid bounds. -/
def Frame.queryHitsAssert (f : Frame) (pixel : IVec2) : Bool :=
  f.WorldPixelIsInRect pixel &&
    (let coord := f.tileCoord pixel
     let num_tiles := f.type.TileSize
     coord.x < 0 || coord.y < 0 || coord.x ≥ num_tiles.x || coord.y ≥ num_tiles.y)

/-- The coarse four-corner hitbox sample set (`player_hitbox_corners`). -/
def player_hitbox_corners : List IVec2 :=
  [⟨-4, -3⟩, ⟨3, -3⟩, ⟨-4, 7⟩, ⟨3, 7⟩]

/-- The dense perimeter hitbox sample set (`player_hitbox_full`). -/
def player_hitbox_full : List IVec2 :=
  [⟨-4, -3⟩, ⟨-3, -3⟩, ⟨-2, -3⟩, ⟨-1, -3⟩, ⟨0, -3⟩, ⟨1, -3⟩, ⟨2, -3⟩, ⟨3, -3⟩,
   ⟨-4, 7⟩, ⟨-3, 7⟩, ⟨-2, 7⟩, ⟨-1, 7⟩, ⟨0, 7⟩, ⟨1, 7⟩, ⟨2, 7⟩, ⟨3, 7⟩,
   ⟨-4, -2⟩, ⟨-4, -1⟩, ⟨-4, 0⟩, ⟨-4, 1⟩, ⟨-4, 2⟩, ⟨-4, 3⟩, ⟨-4, 4⟩, ⟨-4, 5⟩, ⟨-4, 6⟩,
   ⟨3, -2⟩, ⟨3, -1⟩, ⟨3, 0⟩, ⟨3, 1⟩, ⟨3, 2⟩, ⟨3, 3⟩, ⟨3, 4⟩, ⟨3, 5⟩, ⟨3, 6⟩]

/-- Whether some corner of the player's coarse hitbox lands inside the frame's
AABB (the inner `for (ivec2 point : player_hitbox_corners)` loop, which only
needs the first hit). -/
def cornerHit (f : Frame) (playerPos : IVec2) : Bool :=
  player_hitbox_corners.any fun point => f.WorldPixelIsInRect (playerPos + point)

/-- One step of the "Update AABB overlap flags for frames" pass, for the frame
at index `i`; returns the updated frame, the updated `topmost_touched_frame`
accumulator and the updated `no_movement_and_found_player_frame` flag. -/
def occlusionStep (movement_started : Bool) (playerPos : IVec2) (i : Nat)
    (tm : Option Nat) (nmf : Bool) (f : Frame) : Frame × Option Nat × Bool :=
  -- `player_is_under_this_frame` is cleared up front while in edit mode.
  let under0 := if movement_started then f.player_is_under_this_frame else false
  let hit := cornerHit f playerPos
  -- On the first corner hit: record `i` unless the frame is already occluded,
  -- and occlude it if it sits above the player-spawning frame in edit mode.
  let tm' := if hit && !under0 then some i else tm
  let under1 := if hit then (if nmf then true else under0) else false
  let nmf' :=
    if !movement_started && f.spawned_entity_types.any (· = SpawnedEntity.player) then
      true
    else nmf
  ({ f with aabb_overlaps_player := hit, player_is_under_this_frame := under1 }, tm', nmf')

/-- The frame-list recursion of the occlusion bookkeeping pass. -/
def occlusionGo (movement_started : Bool) (playerPos : IVec2) :
    List Frame → Nat → Option Nat → Bool → List Frame × Option Nat
  | [], _, tm, _ => ([], tm)
  | f :: rest, i, tm, nmf =>
    let (f', tm', nmf') := occlusionStep movement_started playerPos i tm nmf f
    let (rest', tmFinal) := occlusionGo movement_started playerPos rest (i + 1) tm' nmf'
    (f' :: rest', tmFinal)

/-- The per-tick occlusion bookkeeping pass (`// Update AABB overlap flags for
frames.`, world.cpp lines 758–797): refreshes `aabb_overlaps_player` and
`player_is_under_this_frame` for every frame and computes
`topmost_touched_frame`. -/
def occlusionPass (movement_started : Bool) (playerPos : IVec2) (frames : List Frame) :
    List Frame × Option Nat :=
  occlusionGo movement_started playerPos frames 0 Option.none false

/-- The inner top-down frame scan of `SolidAtOffset` for a single sample pixel:
`i` counts the frames still to visit (`while (i-- > 0)`), `found` is
`found_aabb_overlap`, `ret` is the blocking accumulator shared by all sample
points.  `update` is the `update_frames` parameter. -/
def solidScanFrom (pixel : IVec2) (tm : Option Nat) (update : Bool) :
    Nat → List Frame → Bool → Bool → List Frame × Bool
  | 0, frames, _, ret => (frames, ret)
  | i + 1, frames, found, ret =>
    let f := frames.getD i default
    if !found && !f.player_is_under_this_frame then
      let r := f.QueryWorldPixel pixel
      let found' := found || decide (r ≥ 0)
      if r = 1 then
        if !f.aabb_overlaps_player && tm.any (fun t => decide (t < i)) && update then
          solidScanFrom pixel tm update i
            (frames.set i { f with player_is_under_this_frame := true }) found' ret
        else
          solidScanFrom pixel tm update i frames found' true
      else
        solidScanFrom pixel tm update i frames found' ret
    else
      solidScanFrom pixel tm update i frames found ret

/-- The `SolidAtOffset` lambda of `World::State::Tick` (lines 973–1009):
scans every dense hitbox sample point against the frame stack top-down,
returning the updated frames and whether the move is blocked. -/
def SolidAtOffset (frames : List Frame) (playerPos : IVec2) (tm : Option Nat)
    (offset : IVec2) (update : Bool) : List Frame × Bool :=
  player_hitbox_full.foldl
    (fun st point =>
      solidScanFrom (playerPos + point + offset) tm update st.1.length st.1 false st.2)
    (frames, false)

/-- Mutable state of the one-pixel-at-a-time position sweep. -/
structure SweepState where
  int_vel : IVec2
  pos : IVec2
  vel : FVec2
  vel_comp : FVec2
  frames : List Frame
  moved_x : Bool
deriving Repr

/-- One per-axis attempt of the sweep (`for (bool vert : {false, true})` body). -/
def stepAxis (tm : Option Nat) (vert : Bool) (s : SweepState) : SweepState :=
  if s.int_vel.comp vert = 0 then s
  else
    let offset := IVec2.setComp ⟨0, 0⟩ vert (if s.int_vel.comp vert > 0 then 1 else -1)
    let res := SolidAtOffset s.frames s.pos tm offset true
    if res.2 then
      let agreeVel := ((s.int_vel.comp vert : ℚ) * s.vel.comp vert > 0 : Bool)
      let vel' := if agreeVel then s.vel.setComp vert 0 else s.vel
      let comp' :=
        if agreeVel && ((s.int_vel.comp vert : ℚ) * s.vel_comp.comp vert > 0 : Bool) then
          s.vel_comp.setComp vert 0
        else s.vel_comp
      { s with frames := res.1, vel := vel', vel_comp := comp',
               int_vel := s.int_vel.setComp vert 0 }
    else
      { s with frames := res.1, int_vel := s.int_vel - offset, pos := s.pos + offset,
               moved_x := s.moved_x || !vert }

/-- Termination measure of the sweep: total remaining whole pixels. -/
def sweepMeasure (v : IVec2) : Nat := v.x.natAbs + v.y.natAbs

/-- The `while (int_vel != ivec2())` loop, with explicit fuel.  Each iteration
strictly shrinks `sweepMeasure int_vel` (see `sweepFuel_int_vel_eq_zero`), so
fuel `sweepMeasure int_vel` reproduces the source loop exactly. -/
def sweepFuel (tm : Option Nat) : Nat → SweepState → SweepState
  | 0, s => s
  | n + 1, s =>
    if s.int_vel = ⟨0, 0⟩ then s
    else sweepFuel tm n (stepAxis tm true (stepAxis tm false s))

/-- Result of the position-update block. -/
structure PosUpdateResult where
  frames : List Frame
  pos : IVec2
  vel : FVec2
  vel_comp : FVec2
  moved_x : Bool
deriving Repr

/-- The damping factor `0.98f`. -/
def vel_damp : ℚ := 49/50

/-- The sub-pixel remainder produced by lines 1087–1090: the unrounded part of
`vel + vel_comp`, damped. -/
def dampedRemainder (v c : ℚ) : ℚ :=
  ((v + c) - cround (v + c)) * vel_damp

/-- The `// Update position.` block of `World::State::Tick`
(lines 1086–1131): rounds `vel + vel_comp` into an integer step, keeps the
damped remainder, then sweeps the integer step one pixel per axis at a time. -/
def positionUpdate (frames : List Frame) (tm : Option Nat) (pos : IVec2)
    (vel vel_comp : FVec2) : PosUpdateResult :=
  let vwc := vel + vel_comp
  let int_vel := croundVec vwc
  let comp1 : FVec2 := ⟨dampedRemainder vel.x vel_comp.x, dampedRemainder vel.y vel_comp.y⟩
  let s := sweepFuel tm (sweepMeasure int_vel) ⟨int_vel, pos, vel, comp1, frames, false⟩
  -- `player.pos += int_vel;` after the loop (a no-op: the loop only exits once
  -- `int_vel` is zero, see `sweepFuel_int_vel_eq_zero`).
  ⟨s.frames, s.pos + s.int_vel, s.vel, s.vel_comp, s.moved_x⟩

/-! ## Entity marker resolution -/

/-- Row-major search for a marker character in a template grid: first matching
row, first matching column within it.  The column scan is bounded by the first
row's length, exactly like the source's `x < TileSize().x` loop bound. -/
def findMarkerGo (t : FrameType) (ch : Char) : List String → Nat → Option IVec2
  | [], _ => Option.none
  | row :: rest, y =>
    match (row.toList.take t.TileSize.x.toNat).findIdx? (· = ch) with
    | some x => some ⟨(x : Int), (y : Int)⟩
    | Option.none => findMarkerGo t ch rest (y + 1)

/-- Tile coordinates of the first grid cell holding `ch`, if any. -/
def findMarker (t : FrameType) (ch : Char) : Option IVec2 :=
  findMarkerGo t ch t.tiles 0

/-- `offset_to_spawned_entity` for a marker found at tile `xy`:
`TopLeftCorner() + ivec2(x, y) * tile_size + tile_size / 2 - pos`. -/
def markerOffset (f : Frame) (xy : IVec2) : IVec2 :=
  f.TopLeftCorner + xy.scale tile_size + ⟨tile_size.tdiv 2, tile_size.tdiv 2⟩ - f.pos

/-- The `ch++` of the marker loop. -/
def chStep (c : Char) : Char := Char.ofNat (c.toNat + 1)

/-- The digit marker requested for the `j`-th spawned-entity entry:
`'1'` for the first, `'2'` for the second, and so on (`char ch = '1'; ... ch++`). -/
def markerChar (j : Nat) : Char := chStep^[j] '1'

/-- The per-entry loop of `InitEntityFromSpecificFrame`: threads the current
marker character, the frame being populated and the optional player spawn
position; a missing marker throws. -/
def initEntityGo : List SpawnedEntity → Char → Frame → Option IVec2 →
    Except String (Frame × Option IVec2)
  | [], _, f, pl => .ok (f, pl)
  | e :: rest, ch, f, pl =>
    match findMarker f.type ch with
    | Option.none => .error "This frame wants to spawn an entity, but has no marker for it."
    | some xy =>
      let off := markerOffset f xy
      let (f', pl') :=
        match e with
        | SpawnedEntity.none => (f, pl)
        | SpawnedEntity.player => (f, some (f.pos + off))
        | SpawnedEntity.exit => ({ f with exit_pos := some off }, pl)
        | SpawnedEntity.key => ({ f with key_positions := f.key_positions ++ [off] }, pl)
      initEntityGo rest (chStep ch) f' pl'

/-- `World::State::InitEntityFromSpecificFrame` (lines 466–509): clears the key
list, then resolves each requested entity from its numbered marker.  The
returned `Option IVec2` is the player spawn position when a player entity was
resolved (the source writes it straight into the global player). -/
def InitEntityFromSpecificFrame (f : Frame) : Except String (Frame × Option IVec2) :=
  initEntityGo f.spawned_entity_types '1' { f with key_positions := [] } Option.none

/-- `World::State::InitEntitiesFromFrames`: resolves every frame in order;
a later frame's player marker overwrites an earlier one. -/
def initFramesGo : List Frame → Option IVec2 → Except String (List Frame × Option IVec2)
  | [], pl => .ok ([], pl)
  | f :: rest, pl =>
    match InitEntityFromSpecificFrame f with
    | .error e => .error e
    | .ok (f', pl1) =>
      match initFramesGo rest (pl1 <|> pl) with
      | .error e => .error e
      | .ok (rest', plF) => .ok (f' :: rest', plF)

/-! ## Level data (the static `Frames::*` templates and `levels` table) -/

namespace Frames

def flower_island : FrameType := ⟨⟨0, 0⟩, ["-----", "-----", "-----", "--1--", "-###-", "-----"]⟩
def vortex : FrameType := ⟨⟨5, 0⟩, ["-----", "-----", "--1--", "-###-"]⟩
def box : FrameType := ⟨⟨10, 0⟩, ["-###-", "-#2#-", "-#1#-", "#####"]⟩
def desert : FrameType := ⟨⟨15, 0⟩, ["---", "---", "-1-", "###"]⟩
def bubbles : FrameType :=
  ⟨⟨18, 0⟩, ["---------", "---------", "#-#######", "#------1#", "#########", "---#2#---", "---###---"]⟩
def vert_glass_tube : FrameType := ⟨⟨15, 4⟩, ["---", "#-#", "#-#", "#-#"]⟩
def stone_wall : FrameType :=
  ⟨⟨27, 0⟩, ["-------", "---2---", "-------", "-------", "-------", "-------", "---1---", "#######"]⟩
def chimney : FrameType := ⟨⟨24, 7⟩, ["---", "##-", "##-"]⟩
def coil : FrameType := ⟨⟨21, 7⟩, ["---", "###", "#1#"]⟩
def snek : FrameType := ⟨⟨27, 8⟩, ["#1###3#", "###2###"]⟩
def staff : FrameType := ⟨⟨27, 10⟩, ["#####-", "----##"]⟩
def stars : FrameType := ⟨⟨19, 7⟩, ["--", "--"]⟩
def clamp : FrameType := ⟨⟨21, 10⟩, ["######", "----1#", "-#####"]⟩
def hole : FrameType := ⟨⟨34, 0⟩, ["#-#", "#-#", "#-#", "#-#", "#1#", "###"]⟩
def cat : FrameType := ⟨⟨18, 9⟩, ["1--", "#--", "##-"]⟩

end Frames

/-- A level of the static `levels` table. -/
structure Level where
  bg_index : Int
  bg_movement_dir : IVec2
  frames : List Frame
deriving Repr

/-- The static `levels` table. -/
def levels : List Level :=
  [⟨0, ⟨1, 0⟩,
    [mkFrame Frames.flower_island ⟨-50, 20⟩ [SpawnedEntity.player],
     mkFrame Frames.vortex ⟨70, -20⟩ [SpawnedEntity.exit]]⟩,
   ⟨1, ⟨1, 0⟩,
    [mkFrame Frames.desert ⟨-50, -20⟩ [SpawnedEntity.player],
     mkFrame Frames.box ⟨70, 20⟩ [SpawnedEntity.exit]]⟩,
   ⟨3, ⟨0, 1⟩,
    [mkFrame Frames.stone_wall ⟨50, 0⟩ [SpawnedEntity.player, SpawnedEntity.exit],
     mkFrame Frames.chimney ⟨-50, -40⟩ [],
     mkFrame Frames.coil ⟨-50, 40⟩ [SpawnedEntity.key]]⟩,
   ⟨2, ⟨0, 1⟩,
    [mkFrame Frames.bubbles ⟨-40, 0⟩ [SpawnedEntity.player, SpawnedEntity.exit],
     mkFrame Frames.vert_glass_tube ⟨80, 0⟩ []]⟩,
   ⟨4, ⟨0, -1⟩,
    [mkFrame Frames.snek ⟨0, 40⟩ [SpawnedEntity.player, SpawnedEntity.key, SpawnedEntity.exit],
     mkFrame Frames.staff ⟨-30, -40⟩ [],
     mkFrame Frames.stars ⟨60, -40⟩ []]⟩,
   ⟨5, ⟨1, 0⟩,
    [mkFrame Frames.box ⟨-60, -30⟩ [SpawnedEntity.player, SpawnedEntity.exit],
     mkFrame Frames.clamp ⟨-60, 40⟩ [SpawnedEntity.key],
     mkFrame Frames.hole ⟨40, 0⟩ [SpawnedEntity.key],
     mkFrame Frames.cat ⟨120, 0⟩ [SpawnedEntity.key]]⟩]

/-! ## Input snapshot and session state -/

/-- The per-tick mouse snapshot. -/
structure Mouse where
  pos : IVec2
  is_down : Bool
  is_down_prev : Bool
deriving DecidableEq, Repr

/-- `Mouse::IsPressed`. -/
def Mouse.IsPressed (m : Mouse) : Bool := m.is_down && !m.is_down_prev

/-- A debounced key snapshot. -/
structure Key where
  is_down : Bool
  is_down_prev : Bool
deriving DecidableEq, Repr

/-- `Key::IsPressed`. -/
def Key.IsPressed (k : Key) : Bool := k.is_down && !k.is_down_prev

/-- The key set consumed by the tick. -/
structure Keys where
  left : Key
  right : Key
  jump : Key
  reset : Key
deriving DecidableEq, Repr

/-- The full input snapshot of one tick. -/
structure Inp where
  mouse : Mouse
  keys : Keys
deriving DecidableEq, Repr

/-- The player state (`World::State::Player`).  The C++ field `exists` is a
reserved word in Lean and is embedded as `exists_`. -/
structure Player where
  exists_ : Bool
  exists_prev : Bool
  pos : IVec2
  vel : FVec2
  vel_comp : FVec2
  on_ground : Bool
  on_ground_prev : Bool
  facing_left : Bool
  movement_timer : Int
  holding_jump : Bool
  death_timer : Int
deriving DecidableEq, Repr

/-- The value-initialized player (`player = {};`). -/
def defaultPlayer : Player :=
  ⟨false, false, ⟨0, 0⟩, ⟨0, 0⟩, ⟨0, 0⟩, false, false, false, 0, false, 0⟩

instance : Inhabited Player := ⟨defaultPlayer⟩

/-- The simulation state threaded between ticks: the persistent fields of
`World::State` that the embedded slice reads or writes, plus the
`Tutorial::dragged_at_least_once` gate (the remaining tutorial/fade/particle
fields are write-only cosmetics). -/
structure GState where
  frames : List Frame
  current_level_index : Nat
  winning_fade_out : Bool
  player : Player
  movement_started : Bool
  reset_button_hovered : Bool
  num_remaining_keys : Int
  dragged_at_least_once : Bool
deriving Repr

/-! ## Tick phases -/

def reset_button_size : IVec2 := ⟨32, 32⟩

def reset_button_pos : IVec2 := screen_size.tdivScalar 2 - reset_button_size

/-- The reset-button hover test. -/
def mouseInResetButton (mpos : IVec2) : Bool :=
  mpos.x ≥ reset_button_pos.x && mpos.y ≥ reset_button_pos.y &&
  mpos.x < reset_button_pos.x + reset_button_size.x &&
  mpos.y < reset_button_pos.y + reset_button_size.y

/-- The `// The reset button.` block (visibility timer omitted: cosmetic). -/
def resetButtonPhase (inp : Inp) (s : GState) : GState :=
  if s.movement_started then
    let rh := mouseInResetButton inp.mouse.pos
    let kill := (rh && inp.mouse.IsPressed) || inp.keys.reset.IsPressed
    { s with reset_button_hovered := rh,
             player := if kill then { s.player with exists_ := false } else s.player }
  else
    { s with reset_button_hovered := false }

/-- The `// Clicking a frame during movement kills the player` block. -/
def frameClickDeathPhase (inp : Inp) (s : GState) : GState :=
  if s.movement_started && inp.mouse.IsPressed && !s.winning_fade_out then
    if s.frames.any (fun f => f.WorldPixelIsInRect inp.mouse.pos) then
      { s with player := { s.player with exists_ := false } }
    else s
  else s

/-- The descending scan of `// Resolve which frame is hovered.`: `i` counts
the frames still to visit, `found` tracks whether a hovered frame was found. -/
def hoverScanFrom (rh w : Bool) (mpos : IVec2) :
    Nat → List Frame → Bool → List Frame × Option Nat
  | 0, frames, _ => (frames, Option.none)
  | i + 1, frames, found =>
    let f := frames.getD i default
    if !found && (f.dragged || (!rh && f.WorldPixelIsInRect mpos && !w)) then
      let res := hoverScanFrom rh w mpos i (frames.set i { f with hovered := true }) true
      (res.1, some i)
    else
      hoverScanFrom rh w mpos i (frames.set i { f with hovered := false }) found

/-- Hover resolution: topmost-first scan marking exactly the first match. -/
def hoverResolution (rh w : Bool) (mpos : IVec2) (frames : List Frame) :
    List Frame × Option Nat :=
  hoverScanFrom rh w mpos frames.length frames false

/-- The `// Update frame hover timers.` body for one frame. -/
def hoverTimeStep (f : Frame) : Frame :=
  let step : ℚ := 3/20
  if f.hovered then
    let cap : ℚ := if f.dragged then 17/10 else 1
    if f.hover_time < cap then
      let t := f.hover_time + step
      { f with hover_time := if t > cap then cap else t }
    else if f.hover_time > cap then
      let t := f.hover_time - step
      { f with hover_time := if t < cap then cap else t }
    else f
  else
    let t := f.hover_time - step
    { f with hover_time := if t < 0 then 0 else t }

/-- `std::rotate(begin + i, begin + i + 1, end)`: the element at `i` moves to
the back, everything else keeps its relative order. -/
def promoteToBack (l : List Frame) (i : Nat) : List Frame :=
  l.take i ++ l.drop (i + 1) ++ (l.get? i).toList

/-- In-place update of `frames.back()`. -/
def updateBack (l : List Frame) (g : Frame → Frame) : List Frame :=
  l.set (l.length - 1) (g (l.getD (l.length - 1) default))

/-- The drag position clamp (`// Clamp frame position.`). -/
def clampDrag (f : Frame) : Frame :=
  let bound := screen_size.tdivScalar 2 - f.PixelSize.tdivScalar 2 - ⟨8, 8⟩
  let px := if f.pos.x < -bound.x then -bound.x else if f.pos.x > bound.x then bound.x else f.pos.x
  let py := if f.pos.y < -bound.y then -bound.y else if f.pos.y > bound.y then bound.y else f.pos.y
  { f with pos := ⟨px, py⟩ }

/-- Writes the resolved player spawn into the global player, when present. -/
def applySpawn (p : Player) (sp : Option IVec2) : Player :=
  match sp with
  | Option.none => p
  | some q => { p with exists_ := true, pos := q }

/-- Output of the dragging block. -/
structure DragOut where
  frames : List Frame
  player : Player
  dragged_at_least_once : Bool
deriving Repr

/-- The `// Dragging.` block (lines 707–756): start, finish and continue, in
source order.  `hovered_idx` is the index resolved by `hoverResolution`;
re-resolving entities while not yet in motion can throw. -/
def dragPhase (m : Mouse) (winning ms pexists dal : Bool) (hovered_idx : Option Nat)
    (player : Player) (frames0 : List Frame) : Except String DragOut :=
  let any0 := frames0.any (·.dragged)
  let started := m.IsPressed && hovered_idx.isSome && !winning
  let frames1 :=
    if started then
      updateBack (promoteToBack frames0 (hovered_idx.getD 0)) fun f =>
        { f with dragged := true, drag_offset_relative_to_mouse := f.pos - m.pos }
    else frames0
  let any1 := if started then true else any0
  let dal1 := if started then true else dal
  let frames2 :=
    if (!m.is_down || winning || (ms && pexists)) && any1 then
      updateBack frames1 fun f => { f with dragged := false }
    else frames1
  if (frames2.getD (frames2.length - 1) default).dragged then
    let frames3 := updateBack frames2 fun f =>
      clampDrag { f with pos := m.pos + f.drag_offset_relative_to_mouse }
    if !ms then
      match InitEntityFromSpecificFrame (frames3.getD (frames3.length - 1) default) with
      | .error e => .error e
      | .ok (f', sp) =>
        .ok ⟨frames3.set (frames3.length - 1) f', applySpawn player sp, dal1⟩
    else .ok ⟨frames3, player, dal1⟩
  else .ok ⟨frames2, player, dal1⟩

/-! ## Player/frame entity interactions -/

def exit_hitbox_size : IVec2 := ⟨5, 5⟩

def key_hitbox_size : IVec2 := ⟨5, 5⟩

/-- Componentwise absolute value (`.map(EM_FUNC(std::abs))`). -/
def absVec (v : IVec2) : IVec2 := ⟨|v.x|, |v.y|⟩

/-- The exit proximity test. -/
def nearExit (playerPos exitWorld : IVec2) : Bool :=
  let dist := absVec (exitWorld - playerPos)
  dist.x < exit_hitbox_size.x && dist.y < exit_hitbox_size.y

/-- The key proximity test. -/
def keyNear (playerPos keyWorld : IVec2) : Bool :=
  let dist := absVec (keyWorld - playerPos)
  dist.x < key_hitbox_size.x && dist.y < key_hitbox_size.y

/-- Interaction with one frame: the exit branch (gated by the stored
remaining-keys counter), then collection of every key in range (the `erase`
loop is a filter).  Returns the updated frame and whether the win fired. -/
def interactFrame (playerPos : IVec2) (nrk : Int) (f : Frame) : Frame × Bool :=
  let fw : Frame × Bool :=
    match f.exit_pos with
    | some e =>
      if nrk = 0 && nearExit playerPos (f.pos + e) then
        ({ f with exit_pos := Option.none }, true)
      else (f, false)
    | Option.none => (f, false)
  ({ fw.1 with
     key_positions := fw.1.key_positions.filter fun k => !keyNear playerPos (fw.1.pos + k) },
   fw.2)

/-- Descending search for the single frame the player interacts with: the
first frame from the top that is not occluded and contains the player pixel. -/
def findInteractFrom (playerPos : IVec2) : Nat → List Frame → Option Nat
  | 0, _ => Option.none
  | i + 1, frames =>
    let f := frames.getD i default
    if !f.player_is_under_this_frame && f.WorldPixelIsInRect playerPos then some i
    else findInteractFrom playerPos i frames

/-- The `// Player to frame entity interactions.` block (lines 801–916):
only runs while the player exists and movement started; only the topmost
non-occluded frame containing the player's pixel is interacted with.
Returns the updated frames, the updated `player.exists` and whether
`winning_fade_out` was set. -/
def entityInteractions (ms pexists : Bool) (frames : List Frame) (playerPos : IVec2)
    (nrk : Int) : List Frame × Bool × Bool :=
  if ms && pexists then
    match findInteractFrom playerPos frames.length frames with
    | Option.none => (frames, pexists, false)
    | some i =>
      let fw := interactFrame playerPos nrk (frames.getD i default)
      (frames.set i fw.1, if fw.2 then false else pexists, fw.2)
  else (frames, pexists, false)

/-- The `// Check if all keys are collected.` recount (lines 919–926). -/
def recountKeys (frames : List Frame) : Int :=
  ((frames.filter fun f => !f.key_positions.isEmpty).length : Int)

/-! ## Player physics -/

def walk_speed : ℚ := 3/2
def walk_acc : ℚ := 2/5
def walk_dec : ℚ := 2/5
def gravity : ℚ := 13/100
def gravity_lowjump : ℚ := 6/25
def max_fall_speed : ℚ := 4

/-- The no-input horizontal deceleration (the `flip` dance of lines 958–970). -/
def decelX (vx : ℚ) : ℚ :=
  let flip := vx < 0
  let v1 := if flip then -vx else vx
  let v2 := if v1 > walk_dec then v1 - walk_dec else 0
  if flip then -v2 else v2

/-- The whole `// Player.` block (lines 929–1140): horizontal control, ground
probe, jumping, gravity, position sweep and movement timer. -/
def playerPhase (inp : Inp) (tm : Option Nat) (s : GState) : GState :=
  if !s.player.exists_ then s
  else
    let hc0 : Int :=
      (if inp.keys.right.is_down then 1 else 0) - (if inp.keys.left.is_down then 1 else 0)
    let hc := if !s.dragged_at_least_once then 0 else hc0
    let ms1 := if hc ≠ 0 then true else s.movement_started
    let facing1 := if hc ≠ 0 then decide (hc < 0) else s.player.facing_left
    let velx1 :=
      if hc ≠ 0 then
        let vx := s.player.vel.x + (hc : ℚ) * walk_acc
        if |vx| > walk_speed then (if vx > 0 then walk_speed else -walk_speed) else vx
      else decelX s.player.vel.x
    let vel1 : FVec2 := ⟨velx1, s.player.vel.y⟩
    -- Grounded probe, without mutating the occlusion flags.
    let ground := SolidAtOffset s.frames s.player.pos tm ⟨0, 1⟩ false
    let on_ground := ground.2
    let frames1 := ground.1
    -- Jumping.
    let jumped := on_ground && inp.keys.jump.IsPressed && s.dragged_at_least_once
    let ms2 := if jumped then true else ms1
    let holding1 :=
      if on_ground then jumped
      else if !inp.keys.jump.is_down || vel1.y > 0 then false
      else s.player.holding_jump
    let vel2 : FVec2 :=
      if jumped then ⟨vel1.x, -3⟩
      else if on_ground && vel1.y > 0 then ⟨vel1.x, 0⟩
      else vel1
    let comp1 : FVec2 :=
      if jumped then ⟨s.player.vel_comp.x, 0⟩
      else if on_ground && !jumped && vel1.y > 0 && s.player.vel_comp.y > 0 then
        ⟨s.player.vel_comp.x, 0⟩
      else s.player.vel_comp
    -- Gravity.
    let vel3 : FVec2 :=
      if ms2 then
        let vy := vel2.y + (if holding1 then gravity else gravity_lowjump)
        ⟨vel2.x, if vy > max_fall_speed then max_fall_speed else vy⟩
      else vel2
    -- Position update sweep.
    let upd := positionUpdate frames1 tm s.player.pos vel3 comp1
    { s with
      frames := upd.frames,
      movement_started := ms2,
      player := { s.player with
        pos := upd.pos, vel := upd.vel, vel_comp := upd.vel_comp,
        on_ground := on_ground, on_ground_prev := s.player.on_ground,
        facing_left := facing1, holding_jump := holding1,
        movement_timer := if upd.moved_x then s.player.movement_timer + 1 else 0 } }

/-- The `// Player death conditions.` block: falling or walking out of bounds. -/
def deathBoundsPhase (s : GState) : GState :=
  if s.player.exists_ &&
     (s.player.pos.x ≤ -(screen_size.x.tdiv 2) || s.player.pos.x > screen_size.x.tdiv 2 ||
      s.player.pos.y > screen_size.y.tdiv 2) then
    { s with player := { s.player with exists_ := false } }
  else s

/-- `World::State::LoadLevelData`: replace the frames with the level's static
layout and re-resolve every entity.  `Option.none` models the `.at` throw on a
bad level index or a marker-resolution throw. -/
def LoadLevelData (s : GState) : Option GState :=
  match levels.get? s.current_level_index with
  | Option.none => Option.none
  | some lv =>
    match initFramesGo lv.frames Option.none with
    | .error _ => Option.none
    | .ok (fr, sp) =>
      some { s with frames := fr, movement_started := false,
                    player := applySpawn defaultPlayer sp, winning_fade_out := false }

/-- `World::State::RestartLevel`: keep the frames where they are, reset the
player and re-resolve the entities. -/
def RestartLevel (s : GState) : Option GState :=
  match initFramesGo s.frames Option.none with
  | .error _ => Option.none
  | .ok (fr, sp) =>
    some { s with frames := fr, movement_started := false,
                  player := applySpawn defaultPlayer sp }

/-- The `// Restarting on death. Also switching to the next level on win.`
block.  `Option.none` models `std::exit(0)` past the last level (and a
re-resolution throw). -/
def deathTimerPhase (s : GState) : Option GState :=
  if !s.player.exists_ then
    let dt := s.player.death_timer + 1
    let s1 := { s with player := { s.player with death_timer := dt } }
    if dt > 45 then
      if s.winning_fade_out then
        let idx := s.current_level_index + 1
        if idx ≥ levels.length then Option.none
        else LoadLevelData { s1 with current_level_index := idx }
      else RestartLevel s1
    else some s1
  else some s

/-- The input-driven frame phases of one tick, in source order: reset button,
frame-click death, hover resolution, hover timers, dragging.  A thrown
entity-resolution error during drag propagates. -/
def tickFramePhase (inp : Inp) (s : GState) : Except String GState :=
  let s1 := resetButtonPhase inp s
  let s2 := frameClickDeathPhase inp s1
  let hov := hoverResolution s2.reset_button_hovered s2.winning_fade_out inp.mouse.pos s2.frames
  let fr4 := hov.1.map hoverTimeStep
  match dragPhase inp.mouse s2.winning_fade_out s2.movement_started s2.player.exists_
      s2.dragged_at_least_once hov.2 s2.player fr4 with
  | .error e => .error e
  | .ok d =>
    .ok { s2 with frames := d.frames, player := d.player,
                  dragged_at_least_once := d.dragged_at_least_once }

/-- The world phases of one tick, in source order: occlusion bookkeeping,
player/frame entity interactions, key recount, player physics, out-of-bounds
death, `exists_prev` update. -/
def tickWorldPhase (inp : Inp) (s5 : GState) : GState :=
  let occ := occlusionPass s5.movement_started s5.player.pos s5.frames
  let inter := entityInteractions s5.movement_started s5.player.exists_ occ.1
    s5.player.pos s5.num_remaining_keys
  let s7 : GState := { s5 with frames := inter.1,
                               player := { s5.player with exists_ := inter.2.1 },
                               winning_fade_out := s5.winning_fade_out || inter.2.2,
                               num_remaining_keys := recountKeys inter.1 }
  let s8 := playerPhase inp occ.2 s7
  let s9 := deathBoundsPhase s8
  { s9 with player := { s9.player with exists_prev := s9.player.exists_ } }

/-- One tick of the simulation core (`World::State::Tick`), restricted to the
state the embedded slice carries: particles, sounds, tutorial text timers, the
fade scalar and the reset-button visibility timer are write-only cosmetics and
are omitted.  `Option.none` models process termination or a thrown content
error. -/
def TickModel (inp : Inp) (s : GState) : Option GState :=
  match tickFramePhase inp s with
  | .error _ => Option.none
  | .ok s5 => deathTimerPhase (tickWorldPhase inp s5)

/-! ## Concrete fixtures used by counterexamples and witnesses -/

/-- A 1×1 frame with a single empty tile at `p` (its AABB is the 16×16 pixel
box centered on `p`). -/
def emptyTileFrameAt (p : IVec2) : Frame := mkFrame ⟨⟨0, 0⟩, ["-"]⟩ p []

/-- A 1×1 frame with a single solid tile at `p`. -/
def solidTileFrameAt (p : IVec2) : Frame := mkFrame ⟨⟨0, 0⟩, ["#"]⟩ p []

/-! ## C8: fatal marker-resolution errors -/

/-- The inner row scan finds a marker exactly when some row holds it within
the first row's width. -/
theorem findMarkerGo_isSome (t : FrameType) (ch : Char) :
    ∀ (rows : List String) (y : Nat),
      (findMarkerGo t ch rows y).isSome
        = rows.any fun row => (row.toList.take t.TileSize.x.toNat).any (· = ch) := by
  intro rows
  induction rows with
  | nil => intro y; rfl
  | cons r0 rest ih =>
    intro y
    have hany : ((r0.toList.take t.TileSize.x.toNat).any (· = ch))
        = ((r0.toList.take t.TileSize.x.toNat).findIdx? (· = ch)).isSome :=
      (List.findIdx?_isSome ..).symm
    rw [List.any_cons, hany]
    rcases hfi : (r0.toList.take t.TileSize.x.toNat).findIdx? (· = ch) with _ | x
    · simp only [findMarkerGo, hfi, Option.isSome_none, Bool.false_or]
      exact ih (y + 1)
    · simp only [findMarkerGo, hfi, Option.isSome_some, Bool.true_or]

/-- On a grid whose rows all have the first row's length, `findMarker` finds
`ch` exactly when some row contains `ch` anywhere. -/
theorem findMarker_isSome (t : FrameType) (ch : Char)
    (hrect : ∀ r ∈ t.tiles, (r.length : Int) = t.TileSize.x) :
    (findMarker t ch).isSome = true ↔ ∃ r ∈ t.tiles, ch ∈ r.toList := by
  rw [findMarker, findMarkerGo_isSome]
  rw [List.any_eq_true]
  constructor
  · rintro ⟨r, hr, hin⟩
    rw [List.any_eq_true] at hin
    obtain ⟨c, hc, hceq⟩ := hin
    rw [decide_eq_true_eq] at hceq
    subst hceq
    exact ⟨r, hr, List.mem_of_mem_take hc⟩
  · rintro ⟨r, hr, hin⟩
    refine ⟨r, hr, ?_⟩
    have hlen : (r.toList.length : Int) = t.TileSize.x := hrect r hr
    have htake : r.toList.take t.TileSize.x.toNat = r.toList :=
      List.take_of_length_le (by omega)
    rw [htake, List.any_eq_true]
    exact ⟨ch, hin, by simp⟩

/-- One step of the marker loop never changes the frame's template. -/
theorem initEntityGo_type (es : List SpawnedEntity) :
    ∀ (ch : Char) (f : Frame) (pl : Option IVec2) (f1 : Frame) (sp : Option IVec2),
      initEntityGo es ch f pl = .ok (f1, sp) → f1.type = f.type := by
  induction es with
  | nil =>
    intro ch f pl f1 sp h
    simp [initEntityGo] at h
    rw [← h.1]
  | cons e rest ih =>
    intro ch f pl f1 sp h
    rcases hm : findMarker f.type ch with _ | xy
    · simp [initEntityGo, hm] at h
    · cases e <;>
        · simp only [initEntityGo, hm] at h
          have := ih _ _ _ _ _ h
          simpa using this

/-- The marker loop completes exactly when every remaining entry's marker
(the `j`-th one being `ch` incremented `j` times) occurs in the template. -/
theorem initEntityGo_isOk (es : List SpawnedEntity) :
    ∀ (ch : Char) (f : Frame) (pl : Option IVec2),
      (initEntityGo es ch f pl).isOk = true ↔
        ∀ j, j < es.length → (findMarker f.type (chStep^[j] ch)).isSome = true := by
  induction es with
  | nil => intro ch f pl; simp [initEntityGo, Except.isOk, Except.toBool]
  | cons e rest ih =>
    intro ch f pl
    rcases hm : findMarker f.type ch with _ | xy
    · simp only [initEntityGo, hm, Except.isOk, Except.toBool]
      constructor
      · intro h; cases h
      · intro h
        have h0 := h 0 (Nat.succ_pos _)
        rw [Function.iterate_zero_apply, hm] at h0
        cases h0
    · have hred : ∀ (f' : Frame) (pl' : Option IVec2), f'.type = f.type →
          ((initEntityGo rest (chStep ch) f' pl').isOk = true ↔
            ∀ j, j < rest.length → (findMarker f.type (chStep^[j] (chStep ch))).isSome = true) := by
        intro f' pl' htype
        rw [ih]
        constructor
        · intro h j hj; rw [← htype]; exact h j hj
        · intro h j hj; rw [htype]; exact h j hj
      have hsplit : (initEntityGo (e :: rest) ch f pl).isOk = true ↔
          ∀ j, j < rest.length → (findMarker f.type (chStep^[j] (chStep ch))).isSome = true := by
        cases e <;>
          · simp only [initEntityGo, hm]
            exact hred _ _ rfl
      rw [hsplit]
      constructor
      · intro h j hj
        match j, hj with
        | 0, _ => rw [Function.iterate_zero_apply, hm]; rfl
        | j + 1, hj =>
          rw [Function.iterate_succ_apply]
          exact h j (by rw [List.length_cons] at hj; omega)
      · intro h j hj
        rw [← Function.iterate_succ_apply]
        exact h (j + 1) (by rw [List.length_cons]; omega)

/-- **C8.**  For every frame with a rectangular template, entity-marker
resolution (`InitEntityFromSpecificFrame`) succeeds exactly when every entry
of the ordered spawned-entity list has its digit marker (`'1'` for the first
entry, `'2'` for the second, …) somewhere in the template grid — ie. it throws
exactly when some requested digit is absent; and the whole-level resolution
(`initFramesGo`, the body of `InitEntitiesFromFrames` used on load) succeeds
exactly when every frame's resolution does, so one bad frame fails the load. -/
theorem c8_marker_resolution :
    (∀ f : Frame, (∀ r ∈ f.type.tiles, (r.length : Int) = f.type.TileSize.x) →
      ((InitEntityFromSpecificFrame f).isOk = true ↔
        ∀ j, j < f.spawned_entity_types.length →
          ∃ r ∈ f.type.tiles, markerChar j ∈ r.toList)) ∧
    (∀ (frames : List Frame) (pl : Option IVec2),
      (initFramesGo frames pl).isOk = true ↔
        ∀ f ∈ frames, (InitEntityFromSpecificFrame f).isOk = true) := by
  constructor
  · intro f hrect
    rw [InitEntityFromSpecificFrame, initEntityGo_isOk]
    constructor
    · intro h j hj
      exact (findMarker_isSome _ _ hrect).mp (h j hj)
    · intro h j hj
      exact (findMarker_isSome _ _ hrect).mpr (h j hj)
  · intro frames
    induction frames with
    | nil => intro pl; simp [initFramesGo, Except.isOk, Except.toBool]
    | cons f rest ih =>
      intro pl
      rcases h1 : InitEntityFromSpecificFrame f with e1 | ⟨f', pl1⟩
      · simp [initFramesGo, h1, Except.isOk, Except.toBool]
      · rcases h2 : initFramesGo rest (pl1 <|> pl) with e2 | ⟨rest', plF⟩
        · constructor
          · intro h
            exfalso
            simp [initFramesGo, h1, h2, Except.isOk, Except.toBool] at h
          · intro h
            exfalso
            have hr : (initFramesGo rest (pl1 <|> pl)).isOk = true :=
              (ih _).mpr fun g hg => h g (List.mem_cons_of_mem _ hg)
            rw [h2] at hr
            simp [Except.isOk, Except.toBool] at hr
        · constructor
          · intro _ g hg
            rcases List.mem_cons.mp hg with hgf | hgr
            · rw [hgf, h1]; rfl
            · exact (ih _).mp (by rw [h2]; rfl) g hgr
          · intro _
            simp only [initFramesGo, h1, h2]
            rfl

/-- Witness for C8: the level-1 `box` exit frame resolves, and the empty frame
list resolves. -/
theorem c8_marker_resolution_witness :
    (InitEntityFromSpecificFrame (mkFrame Frames.box ⟨70, 20⟩ [SpawnedEntity.exit])).isOk
      = true ∧
    (initFramesGo [] Option.none).isOk = true :=
  ⟨(c8_marker_resolution.1 _ (by decide)).mpr (by decide),
   (c8_marker_resolution.2 [] Option.none).mpr (by simp)⟩

/-! ## Per-phase bookkeeping lemmas -/

theorem resetButtonPhase_winning (inp : Inp) (s : GState) :
    (resetButtonPhase inp s).winning_fade_out = s.winning_fade_out := by
  rw [resetButtonPhase]; split <;> rfl

theorem resetButtonPhase_keys (inp : Inp) (s : GState) :
    (resetButtonPhase inp s).num_remaining_keys = s.num_remaining_keys := by
  rw [resetButtonPhase]; split <;> rfl

theorem resetButtonPhase_ms (inp : Inp) (s : GState) :
    (resetButtonPhase inp s).movement_started = s.movement_started := by
  rw [resetButtonPhase]; split <;> rfl

theorem frameClickDeathPhase_winning (inp : Inp) (s : GState) :
    (frameClickDeathPhase inp s).winning_fade_out = s.winning_fade_out := by
  rw [frameClickDeathPhase]
  split
  · split <;> rfl
  · rfl

theorem frameClickDeathPhase_keys (inp : Inp) (s : GState) :
    (frameClickDeathPhase inp s).num_remaining_keys = s.num_remaining_keys := by
  rw [frameClickDeathPhase]
  split
  · split <;> rfl
  · rfl

theorem frameClickDeathPhase_ms (inp : Inp) (s : GState) :
    (frameClickDeathPhase inp s).movement_started = s.movement_started := by
  rw [frameClickDeathPhase]
  split
  · split <;> rfl
  · rfl

theorem playerPhase_winning (inp : Inp) (tm : Option Nat) (s : GState) :
    (playerPhase inp tm s).winning_fade_out = s.winning_fade_out := by
  rw [playerPhase]; split <;> rfl

theorem deathBoundsPhase_winning (s : GState) :
    (deathBoundsPhase s).winning_fade_out = s.winning_fade_out := by
  rw [deathBoundsPhase]; split <;> rfl

theorem LoadLevelData_winning (s s' : GState) :
    LoadLevelData s = some s' → s'.winning_fade_out = false := by
  rw [LoadLevelData]
  split
  · intro h; cases h
  · split
    · intro h; cases h
    · intro h; cases h; rfl

theorem RestartLevel_winning (s s' : GState) :
    RestartLevel s = some s' → s'.winning_fade_out = s.winning_fade_out := by
  rw [RestartLevel]
  split
  · intro h; cases h
  · intro h; cases h; rfl

/-- A tick's death-timer block never turns on `winning_fade_out`. -/
theorem deathTimerPhase_winning (s s' : GState) (hw : s.winning_fade_out = false) :
    deathTimerPhase s = some s' → s'.winning_fade_out = false := by
  rw [deathTimerPhase]
  split
  · dsimp only
    split
    · split
      · rename_i hwt
        rw [hw] at hwt
        cases hwt
      · intro h
        have := RestartLevel_winning _ _ h
        rw [this]
        exact hw
    · intro h; cases h; exact hw
  · intro h; cases h; exact hw

/-- The frame phase of a tick never changes the winning flag, the stored key
counter or the movement flag. -/
theorem tickFramePhase_ok (inp : Inp) (s s5 : GState)
    (h : tickFramePhase inp s = .ok s5) :
    s5.winning_fade_out = s.winning_fade_out ∧
    s5.num_remaining_keys = s.num_remaining_keys ∧
    s5.movement_started = s.movement_started := by
  rw [tickFramePhase] at h
  split at h
  · cases h
  · cases h
    refine ⟨?_, ?_, ?_⟩
    · show (frameClickDeathPhase inp (resetButtonPhase inp s)).winning_fade_out
        = s.winning_fade_out
      rw [frameClickDeathPhase_winning, resetButtonPhase_winning]
    · show (frameClickDeathPhase inp (resetButtonPhase inp s)).num_remaining_keys
        = s.num_remaining_keys
      rw [frameClickDeathPhase_keys, resetButtonPhase_keys]
    · show (frameClickDeathPhase inp (resetButtonPhase inp s)).movement_started
        = s.movement_started
      rw [frameClickDeathPhase_ms, resetButtonPhase_ms]

/-! ## Small component lemmas for the vector types -/

theorem IVec2.comp_false (v : IVec2) : v.comp false = v.x := rfl

theorem IVec2.comp_true (v : IVec2) : v.comp true = v.y := rfl

theorem IVec2.setComp_false (v : IVec2) (c : Int) : v.setComp false c = ⟨c, v.y⟩ := rfl

theorem IVec2.setComp_true (v : IVec2) (c : Int) : v.setComp true c = ⟨v.x, c⟩ := rfl

theorem IVec2.sub_def (a b : IVec2) : a - b = ⟨a.x - b.x, a.y - b.y⟩ := rfl

theorem IVec2.add_def (a b : IVec2) : a + b = ⟨a.x + b.x, a.y + b.y⟩ := rfl

theorem IVec2.comp_sub (a b : IVec2) (vert : Bool) :
    (a - b).comp vert = a.comp vert - b.comp vert := by cases vert <;> rfl

theorem IVec2.eq_zero_iff (v : IVec2) : v = ⟨0, 0⟩ ↔ v.x = 0 ∧ v.y = 0 := by
  cases v
  simp [IVec2.mk.injEq]

theorem FVec2.fcomp_false (v : FVec2) : v.comp false = v.x := rfl

theorem FVec2.fcomp_true (v : FVec2) : v.comp true = v.y := rfl

/-! ## C3: the per-axis sweep rule -/

/-- One axis attempt never touches the other axis' remaining integer step. -/
theorem stepAxis_int_vel_other (tm : Option Nat) (vert : Bool) (s : SweepState) :
    (stepAxis tm vert s).int_vel.comp (!vert) = s.int_vel.comp (!vert) := by
  rw [stepAxis]
  dsimp only
  cases vert <;>
    · repeat' split
      all_goals
        simp [IVec2.comp_sub, IVec2.comp_false, IVec2.comp_true, IVec2.setComp_false,
          IVec2.setComp_true, IVec2.sub_def]

/-- One axis attempt never grows the remaining step on its own axis, and
strictly shrinks it when that axis still has pixels to move. -/
theorem stepAxis_int_vel_abs (tm : Option Nat) (vert : Bool) (s : SweepState) :
    ((stepAxis tm vert s).int_vel.comp vert).natAbs ≤ (s.int_vel.comp vert).natAbs ∧
    (s.int_vel.comp vert ≠ 0 →
      ((stepAxis tm vert s).int_vel.comp vert).natAbs < (s.int_vel.comp vert).natAbs) := by
  constructor
  · rw [stepAxis]
    dsimp only
    cases vert <;>
      · repeat' split
        all_goals
          simp_all [IVec2.comp_false, IVec2.comp_true, IVec2.setComp_false,
            IVec2.setComp_true, IVec2.sub_def]
        all_goals omega
  · intro hnz
    rw [stepAxis]
    dsimp only
    cases vert <;>
      · repeat' split
        all_goals
          simp_all [IVec2.comp_false, IVec2.comp_true, IVec2.setComp_false,
            IVec2.setComp_true, IVec2.sub_def]
        all_goals omega

/-- With fuel at least the remaining pixel count, the sweep loop runs to
completion: it only stops once the whole integer step has been consumed or
zeroed — this justifies the `sweepMeasure` fuel in `positionUpdate` and makes
the trailing `player.pos += int_vel` of the source a no-op. -/
theorem sweepFuel_int_vel_eq_zero (tm : Option Nat) :
    ∀ (n : Nat) (s : SweepState), sweepMeasure s.int_vel ≤ n →
      (sweepFuel tm n s).int_vel = ⟨0, 0⟩ := by
  intro n
  induction n with
  | zero =>
    intro s h
    have hx : s.int_vel = ⟨0, 0⟩ := by
      rw [IVec2.eq_zero_iff]
      rw [sweepMeasure] at h
      omega
    exact hx
  | succ n ih =>
    intro s h
    rw [sweepFuel]
    split
    · assumption
    · rename_i hnz
      apply ih
      have h1 := stepAxis_int_vel_abs tm false s
      have h1o := stepAxis_int_vel_other tm false s
      have h2 := stepAxis_int_vel_abs tm true (stepAxis tm false s)
      have h2o := stepAxis_int_vel_other tm true (stepAxis tm false s)
      have hcases : s.int_vel.comp false ≠ 0 ∨ s.int_vel.comp true ≠ 0 := by
        by_contra hc
        push_neg at hc
        exact hnz ((IVec2.eq_zero_iff s.int_vel).mpr ⟨hc.1, hc.2⟩)
      have hm : ∀ v : IVec2, sweepMeasure v = (v.comp false).natAbs + (v.comp true).natAbs :=
        fun v => rfl
      rw [hm] at h ⊢
      simp only [Bool.not_false, Bool.not_true] at h1o h2o
      rcases hcases with hx | hy
      · have ha := h1.2 hx
        have hb := h2.1
        omega
      · have ha := h1.1
        have hy1 : (stepAxis tm false s).int_vel.comp true ≠ 0 := by
          rw [h1o]; exact hy
        have hb := h2.2 hy1
        omega

/-- **C3 amended.**  In the per-axis one-pixel sweep (horizontal first, then
vertical, while steps remain): when the dense hitbox probe reports blocked at
the attempted offset, that axis' remaining step is zeroed, the position is
unchanged, the velocity on that axis is zeroed exactly when its sign agrees
with the step direction, and the sub-pixel remainder on that axis is zeroed
exactly when **both** the velocity and the remainder agree in sign with the
step (not, as claimed, whenever the velocity alone agrees); when the probe
reports free, the one-pixel step is committed and the remaining delta shrinks
by one; and with fuel `sweepMeasure` the loop always exhausts the whole
integer step. -/
theorem c3_sweep_axis_rule (tm : Option Nat) (vert : Bool) (s : SweepState)
    (hnz : s.int_vel.comp vert ≠ 0) :
    ((SolidAtOffset s.frames s.pos tm
        (IVec2.setComp ⟨0, 0⟩ vert (if s.int_vel.comp vert > 0 then 1 else -1)) true).2 = true →
      (stepAxis tm vert s).int_vel.comp vert = 0 ∧
      (stepAxis tm vert s).pos = s.pos ∧
      (stepAxis tm vert s).vel.comp vert
        = (if (s.int_vel.comp vert : ℚ) * s.vel.comp vert > 0 then 0 else s.vel.comp vert) ∧
      (stepAxis tm vert s).vel_comp.comp vert
        = (if (s.int_vel.comp vert : ℚ) * s.vel.comp vert > 0 ∧
              (s.int_vel.comp vert : ℚ) * s.vel_comp.comp vert > 0 then 0
           else s.vel_comp.comp vert)) ∧
    ((SolidAtOffset s.frames s.pos tm
        (IVec2.setComp ⟨0, 0⟩ vert (if s.int_vel.comp vert > 0 then 1 else -1)) true).2 = false →
      (stepAxis tm vert s).pos
        = s.pos + IVec2.setComp ⟨0, 0⟩ vert (if s.int_vel.comp vert > 0 then 1 else -1) ∧
      (stepAxis tm vert s).int_vel
        = s.int_vel - IVec2.setComp ⟨0, 0⟩ vert (if s.int_vel.comp vert > 0 then 1 else -1) ∧
      (stepAxis tm vert s).vel = s.vel ∧
      (stepAxis tm vert s).vel_comp = s.vel_comp) ∧
    (∀ s' : SweepState, (sweepFuel tm (sweepMeasure s'.int_vel) s').int_vel = ⟨0, 0⟩) := by
  refine ⟨?_, ?_, fun s' => sweepFuel_int_vel_eq_zero tm _ s' (le_refl _)⟩
  · intro hres
    rw [stepAxis]
    dsimp only
    rw [if_neg hnz, if_pos hres]
    refine ⟨?_, rfl, ?_, ?_⟩ <;>
      cases vert <;>
        simp only [FVec2.setComp, IVec2.setComp_false, IVec2.setComp_true,
          IVec2.comp_false, IVec2.comp_true, FVec2.fcomp_false, FVec2.fcomp_true,
          Bool.and_eq_true, decide_eq_true_eq] <;>
        first
          | rfl
          | (split <;> rfl)
  · intro hres
    rw [stepAxis]
    dsimp only
    rw [if_neg hnz, if_neg (by rw [hres]; exact Bool.false_ne_true)]
    exact ⟨rfl, rfl, rfl, rfl⟩

/-- **C3 counterexample.**  Player at the origin against a solid wall one
pixel to the right, with `vel = (1, 0)` and carried remainder `(-2/5, 0)`:
`vel + rem = 0.6` rounds to a one-pixel step to the right, the step direction
agrees with the velocity sign, and the dense hitbox probe reports blocked —
so the claim requires both the velocity and the remainder to be zeroed; the
code zeroes the velocity but leaves the remainder at `(0.6 − 1)·0.98 =
−49/125 ≠ 0`, because the remainder's sign (negative) disagrees with the
attempted step. -/
theorem c3_counterexample :
    croundVec ((⟨1, 0⟩ : FVec2) + ⟨-2/5, 0⟩) = (⟨1, 0⟩ : IVec2) ∧
    (SolidAtOffset [solidTileFrameAt ⟨12, 0⟩] ⟨0, 0⟩ Option.none ⟨1, 0⟩ true).2 = true ∧
    (positionUpdate [solidTileFrameAt ⟨12, 0⟩] Option.none ⟨0, 0⟩ ⟨1, 0⟩ ⟨-2/5, 0⟩).vel.x
      = 0 ∧
    (positionUpdate [solidTileFrameAt ⟨12, 0⟩] Option.none ⟨0, 0⟩ ⟨1, 0⟩ ⟨-2/5, 0⟩).vel_comp.x
      = -49/125 ∧
    (positionUpdate [solidTileFrameAt ⟨12, 0⟩] Option.none ⟨0, 0⟩ ⟨1, 0⟩ ⟨-2/5, 0⟩).pos
      = ⟨0, 0⟩ := by
  have hcr1 : cround ((1 : ℚ) + -2/5) = 1 := by
    rw [cround, if_pos (by norm_num)]
    norm_num
  have hcr2 : cround ((0 : ℚ) + 0) = 0 := by
    rw [cround, if_pos (by norm_num)]
    norm_num
  have hround : croundVec ((⟨1, 0⟩ : FVec2) + ⟨-2/5, 0⟩) = (⟨1, 0⟩ : IVec2) := by
    show (⟨cround ((1 : ℚ) + -2/5), cround ((0 : ℚ) + 0)⟩ : IVec2) = ⟨1, 0⟩
    rw [hcr1, hcr2]
  have hdampx : dampedRemainder 1 (-2/5) = -49/125 := by
    rw [dampedRemainder, vel_damp, hcr1]
    norm_num
  have hdampy : dampedRemainder 0 0 = 0 := by
    rw [dampedRemainder, vel_damp, hcr2]
    norm_num
  have hres : (SolidAtOffset [solidTileFrameAt ⟨12, 0⟩] ⟨0, 0⟩ Option.none ⟨1, 0⟩ true).2
      = true := by decide
  -- The sweep state the update block builds after the rounding step.
  have hpu : positionUpdate [solidTileFrameAt ⟨12, 0⟩] Option.none ⟨0, 0⟩ ⟨1, 0⟩ ⟨-2/5, 0⟩
      = ⟨(sweepFuel Option.none (sweepMeasure (croundVec ((⟨1, 0⟩ : FVec2) + ⟨-2/5, 0⟩)))
            ⟨croundVec ((⟨1, 0⟩ : FVec2) + ⟨-2/5, 0⟩), ⟨0, 0⟩, ⟨1, 0⟩,
             ⟨dampedRemainder 1 (-2/5), dampedRemainder 0 0⟩,
             [solidTileFrameAt ⟨12, 0⟩], false⟩).frames,
          (sweepFuel Option.none (sweepMeasure (croundVec ((⟨1, 0⟩ : FVec2) + ⟨-2/5, 0⟩)))
            ⟨croundVec ((⟨1, 0⟩ : FVec2) + ⟨-2/5, 0⟩), ⟨0, 0⟩, ⟨1, 0⟩,
             ⟨dampedRemainder 1 (-2/5), dampedRemainder 0 0⟩,
             [solidTileFrameAt ⟨12, 0⟩], false⟩).pos
            + (sweepFuel Option.none (sweepMeasure (croundVec ((⟨1, 0⟩ : FVec2) + ⟨-2/5, 0⟩)))
            ⟨croundVec ((⟨1, 0⟩ : FVec2) + ⟨-2/5, 0⟩), ⟨0, 0⟩, ⟨1, 0⟩,
             ⟨dampedRemainder 1 (-2/5), dampedRemainder 0 0⟩,
             [solidTileFrameAt ⟨12, 0⟩], false⟩).int_vel,
          (sweepFuel Option.none (sweepMeasure (croundVec ((⟨1, 0⟩ : FVec2) + ⟨-2/5, 0⟩)))
            ⟨croundVec ((⟨1, 0⟩ : FVec2) + ⟨-2/5, 0⟩), ⟨0, 0⟩, ⟨1, 0⟩,
             ⟨dampedRemainder 1 (-2/5), dampedRemainder 0 0⟩,
             [solidTileFrameAt ⟨12, 0⟩], false⟩).vel,
          (sweepFuel Option.none (sweepMeasure (croundVec ((⟨1, 0⟩ : FVec2) + ⟨-2/5, 0⟩)))
            ⟨croundVec ((⟨1, 0⟩ : FVec2) + ⟨-2/5, 0⟩), ⟨0, 0⟩, ⟨1, 0⟩,
             ⟨dampedRemainder 1 (-2/5), dampedRemainder 0 0⟩,
             [solidTileFrameAt ⟨12, 0⟩], false⟩).vel_comp,
          (sweepFuel Option.none (sweepMeasure (croundVec ((⟨1, 0⟩ : FVec2) + ⟨-2/5, 0⟩)))
            ⟨croundVec ((⟨1, 0⟩ : FVec2) + ⟨-2/5, 0⟩), ⟨0, 0⟩, ⟨1, 0⟩,
             ⟨dampedRemainder 1 (-2/5), dampedRemainder 0 0⟩,
             [solidTileFrameAt ⟨12, 0⟩], false⟩).moved_x⟩ := rfl
  rw [hround, hdampx, hdampy] at hpu
  have hmeas : sweepMeasure (⟨1, 0⟩ : IVec2) = 1 := rfl
  rw [hmeas] at hpu
  -- One loop iteration: the horizontal attempt is blocked, the vertical one
  -- has no remaining step.
  have hfuel : sweepFuel Option.none 1
      (⟨⟨1, 0⟩, ⟨0, 0⟩, ⟨1, 0⟩, ⟨-49/125, 0⟩, [solidTileFrameAt ⟨12, 0⟩], false⟩ : SweepState)
      = stepAxis Option.none true (stepAxis Option.none false
          ⟨⟨1, 0⟩, ⟨0, 0⟩, ⟨1, 0⟩, ⟨-49/125, 0⟩, [solidTileFrameAt ⟨12, 0⟩], false⟩) := by
    rw [sweepFuel, if_neg (by decide)]
    rfl
  rw [hfuel] at hpu
  -- The horizontal attempt, by the per-axis rule.
  have hrule := c3_sweep_axis_rule Option.none false
    ⟨⟨1, 0⟩, ⟨0, 0⟩, ⟨1, 0⟩, ⟨-49/125, 0⟩, [solidTileFrameAt ⟨12, 0⟩], false⟩ (by decide)
  have hresR : (SolidAtOffset [solidTileFrameAt ⟨12, 0⟩] ⟨0, 0⟩ Option.none
      (IVec2.setComp ⟨0, 0⟩ false
        (if IVec2.comp ⟨1, 0⟩ false > 0 then 1 else -1)) true).2 = true := by decide
  obtain ⟨hiv0, hppos, hvel, hcomp⟩ := hrule.1 hresR
  have hvel0 : (stepAxis Option.none false
      ⟨⟨1, 0⟩, ⟨0, 0⟩, ⟨1, 0⟩, ⟨-49/125, 0⟩, [solidTileFrameAt ⟨12, 0⟩], false⟩).vel.comp false
      = 0 := by
    rw [hvel, if_pos]
    simp only [IVec2.comp_false, FVec2.fcomp_false]
    norm_num
  have hcomp0 : (stepAxis Option.none false
      ⟨⟨1, 0⟩, ⟨0, 0⟩, ⟨1, 0⟩, ⟨-49/125, 0⟩,
        [solidTileFrameAt ⟨12, 0⟩], false⟩).vel_comp.comp false
      = -49/125 := by
    rw [hcomp, if_neg]
    · rfl
    · rintro ⟨-, hc⟩
      simp only [IVec2.comp_false, FVec2.fcomp_false] at hc
      norm_num at hc
  -- The vertical attempt is a no-op: its remaining step is already zero.
  have hoth := stepAxis_int_vel_other Option.none false
    ⟨⟨1, 0⟩, ⟨0, 0⟩, ⟨1, 0⟩, ⟨-49/125, 0⟩, [solidTileFrameAt ⟨12, 0⟩], false⟩
  simp only [Bool.not_false] at hoth
  have hy0 : (stepAxis Option.none false
      ⟨⟨1, 0⟩, ⟨0, 0⟩, ⟨1, 0⟩, ⟨-49/125, 0⟩,
        [solidTileFrameAt ⟨12, 0⟩], false⟩).int_vel.comp true = 0 := by
    rw [hoth]
    rfl
  have hvert : stepAxis Option.none true (stepAxis Option.none false
      ⟨⟨1, 0⟩, ⟨0, 0⟩, ⟨1, 0⟩, ⟨-49/125, 0⟩, [solidTileFrameAt ⟨12, 0⟩], false⟩)
      = stepAxis Option.none false
          ⟨⟨1, 0⟩, ⟨0, 0⟩, ⟨1, 0⟩, ⟨-49/125, 0⟩, [solidTileFrameAt ⟨12, 0⟩], false⟩ := by
    rw [stepAxis, if_pos hy0]
  rw [hvert] at hpu
  have hivz : (stepAxis Option.none false
      ⟨⟨1, 0⟩, ⟨0, 0⟩, ⟨1, 0⟩, ⟨-49/125, 0⟩,
        [solidTileFrameAt ⟨12, 0⟩], false⟩).int_vel = ⟨0, 0⟩ := by
    rw [IVec2.eq_zero_iff]
    exact ⟨by rw [← IVec2.comp_false]; exact hiv0, by rw [← IVec2.comp_true]; exact hy0⟩
  refine ⟨hround, hres, ?_, ?_, ?_⟩
  · rw [hpu]
    rw [← FVec2.fcomp_false]
    exact hvel0
  · rw [hpu]
    rw [← FVec2.fcomp_false]
    exact hcomp0
  · rw [hpu]
    rw [hppos, hivz]
    rfl

/-- Witness for the amended C3 at the counterexample's concrete state. -/
theorem c3_sweep_axis_rule_witness :
    (stepAxis Option.none false
      ⟨⟨1, 0⟩, ⟨0, 0⟩, ⟨1, 0⟩, ⟨-49/125, 0⟩, [solidTileFrameAt ⟨12, 0⟩], false⟩).int_vel.comp
        false = 0 ∧
    (stepAxis Option.none false
      ⟨⟨1, 0⟩, ⟨0, 0⟩, ⟨1, 0⟩, ⟨-49/125, 0⟩, [solidTileFrameAt ⟨12, 0⟩], false⟩).vel.comp
        false = 0 ∧
    (stepAxis Option.none false
      ⟨⟨1, 0⟩, ⟨0, 0⟩, ⟨1, 0⟩, ⟨-49/125, 0⟩, [solidTileFrameAt ⟨12, 0⟩], false⟩).vel_comp.comp
        false = -49/125 := by
  have h := c3_sweep_axis_rule Option.none false
    ⟨⟨1, 0⟩, ⟨0, 0⟩, ⟨1, 0⟩, ⟨-49/125, 0⟩, [solidTileFrameAt ⟨12, 0⟩], false⟩ (by decide)
  have hres : (SolidAtOffset [solidTileFrameAt ⟨12, 0⟩] ⟨0, 0⟩ Option.none
      (IVec2.setComp ⟨0, 0⟩ false
        (if (IVec2.comp ⟨1, 0⟩ false) > 0 then 1 else -1)) true).2 = true := by decide
  obtain ⟨h1, h2, h3, h4⟩ := h.1 hres
  refine ⟨h1, ?_, ?_⟩
  · rw [h3, if_pos (by norm_num [IVec2.comp_false, FVec2.fcomp_false])]
  · rw [h4, if_neg ?_]
    · rfl
    · rintro ⟨-, hc⟩
      norm_num [IVec2.comp_false, FVec2.fcomp_false] at hc

/-! ## C2: which frames a movement-validation query occludes -/

/-- A pixel outside a frame's AABB always queries as `-1`. -/
theorem query_of_not_inRect (f : Frame) (pixel : IVec2)
    (h : f.WorldPixelIsInRect pixel = false) : f.QueryWorldPixel pixel = -1 := by
  simp [Frame.QueryWorldPixel, h]

/-- Once `found_aabb_overlap` is set, the rest of the scan is a no-op. -/
theorem solidScanFrom_found (pixel : IVec2) (tm : Option Nat) (update : Bool) :
    ∀ (k : Nat) (frames : List Frame) (ret : Bool),
      solidScanFrom pixel tm update k frames true ret = (frames, ret) := by
  intro k
  induction k with
  | zero => intro frames ret; rfl
  | succ k ih => intro frames ret; simp [solidScanFrom, ih]

/-- Scanning down past frames that are occluded or miss the pixel entirely
changes nothing. -/
theorem solidScanFrom_skip (pixel : IVec2) (tm : Option Nat) (update : Bool)
    (frames : List Frame) (i : Nat) :
    ∀ (n : Nat) (ret : Bool), i < n →
      (∀ j, i < j → j < n →
        ¬((frames.getD j default).player_is_under_this_frame = false ∧
          (frames.getD j default).WorldPixelIsInRect pixel = true)) →
      solidScanFrom pixel tm update n frames false ret
        = solidScanFrom pixel tm update (i + 1) frames false ret := by
  intro n
  induction n with
  | zero => intro ret h; omega
  | succ n ih =>
    intro ret hlt hno
    rcases Nat.lt_succ_iff_lt_or_eq.mp hlt with hlt' | heq
    · have hn := hno n (by omega) (by omega)
      rcases hu : (frames.getD n default).player_is_under_this_frame with _ | _
      · have hr : (frames.getD n default).WorldPixelIsInRect pixel = false := by
          rcases hrect : (frames.getD n default).WorldPixelIsInRect pixel with _ | _
          · rfl
          · exact absurd ⟨hu, hrect⟩ hn
        have hq := query_of_not_inRect _ _ hr
        rw [solidScanFrom]
        simp only [hu, hq, Bool.not_false, Bool.not_true, Bool.and_true, Bool.and_false]
        norm_num
        exact ih ret hlt' fun j h1 h2 => hno j h1 (by omega)
      · rw [solidScanFrom]
        simp only [hu, Bool.not_false, Bool.not_true, Bool.and_true, Bool.and_false]
        norm_num
        exact ih ret hlt' fun j h1 h2 => hno j h1 (by omega)
    · subst heq
      rfl

/-- The scan step at a frame that is not occluded, reports solid, has no
AABB overlap with the player's corners and sits strictly above the
`topmost_touched_frame` threshold sets that frame's occlusion flag during a
flag-mutating query, and leaves the blocking accumulator unchanged. -/
theorem solidScanFrom_flag (pixel : IVec2) (tm : Option Nat) (frames : List Frame)
    (i : Nat) (ret : Bool)
    (hu : (frames.getD i default).player_is_under_this_frame = false)
    (hq : (frames.getD i default).QueryWorldPixel pixel = 1)
    (haabb : (frames.getD i default).aabb_overlaps_player = false)
    (ht : tm.any (fun t => decide (t < i)) = true) :
    solidScanFrom pixel tm true (i + 1) frames false ret
      = (frames.set i { frames.getD i default with player_is_under_this_frame := true },
         ret) := by
  rw [solidScanFrom]
  simp only [hu, hq, haabb, ht, Bool.not_false, Bool.and_true, Bool.true_and]
  norm_num
  exact solidScanFrom_found pixel tm true i _ ret

/-- **C2 counterexample.**  Player at the origin standing on a solid 1×1 frame
(index 0) whose top row sits one pixel below the feet samples, with an empty
frame (index 1) overlapping the player, after the real occlusion pass
(`topmost_touched_frame = 1`): during the flag-mutating downward probe
`SolidAtOffset (0,1)`, frame 0 has index `0 < 1`, reports Solid at sample
pixel `(0,8)` and is not occluded — the claim says it must become
`under_player_frame` and not block — yet the query leaves its flag clear and
returns blocked. -/
theorem c2_counterexample :
    (occlusionPass true ⟨0, 0⟩ [solidTileFrameAt ⟨0, 16⟩, emptyTileFrameAt ⟨0, 0⟩]).2
      = some 1 ∧
    (((occlusionPass true ⟨0, 0⟩
        [solidTileFrameAt ⟨0, 16⟩, emptyTileFrameAt ⟨0, 0⟩]).1.getD 0
          default).player_is_under_this_frame = false ∧
      ((occlusionPass true ⟨0, 0⟩
        [solidTileFrameAt ⟨0, 16⟩, emptyTileFrameAt ⟨0, 0⟩]).1.getD 0
          default).QueryWorldPixel ⟨0, 8⟩ = 1) ∧
    (SolidAtOffset (occlusionPass true ⟨0, 0⟩
        [solidTileFrameAt ⟨0, 16⟩, emptyTileFrameAt ⟨0, 0⟩]).1 ⟨0, 0⟩
      (occlusionPass true ⟨0, 0⟩
        [solidTileFrameAt ⟨0, 16⟩, emptyTileFrameAt ⟨0, 0⟩]).2 ⟨0, 1⟩ true).2 = true ∧
    ((SolidAtOffset (occlusionPass true ⟨0, 0⟩
        [solidTileFrameAt ⟨0, 16⟩, emptyTileFrameAt ⟨0, 0⟩]).1 ⟨0, 0⟩
      (occlusionPass true ⟨0, 0⟩
        [solidTileFrameAt ⟨0, 16⟩, emptyTileFrameAt ⟨0, 0⟩]).2 ⟨0, 1⟩ true).1.getD 0
        default).player_is_under_this_frame = false := by
  refine ⟨by decide, ⟨by decide, by decide⟩, by decide, by decide⟩

/-- **C2 amended.**  During a flag-mutating movement-validation scan of one
sample pixel, the frame that gets its `under_player_frame` flag set is the one
strictly **above** the `topmost_touched_frame` index (not below), provided it
is the topmost non-occluded frame whose AABB contains the sample pixel, it
reports Solid there, and its own AABB does not overlap the player's corner
set; such a frame does not count as blocking for that sample pixel. -/
theorem c2_occlusion_is_above_threshold (pixel : IVec2) (t i : Nat) (frames : List Frame)
    (ret : Bool)
    (hlen : i < frames.length)
    (habove : ∀ j, i < j → j < frames.length →
      ¬((frames.getD j default).player_is_under_this_frame = false ∧
        (frames.getD j default).WorldPixelIsInRect pixel = true))
    (hu : (frames.getD i default).player_is_under_this_frame = false)
    (hq : (frames.getD i default).QueryWorldPixel pixel = 1)
    (haabb : (frames.getD i default).aabb_overlaps_player = false)
    (ht : t < i) :
    solidScanFrom pixel (some t) true frames.length frames false ret
      = (frames.set i { frames.getD i default with player_is_under_this_frame := true },
         ret) := by
  rcases Nat.lt_or_ge i (frames.length) with _ | _
  · rcases Nat.eq_or_lt_of_le (Nat.succ_le_of_lt hlen) with heq | hlt
    · rw [← heq]
      exact solidScanFrom_flag pixel (some t) frames i ret hu hq haabb
        (by simpa using ht)
    · rw [solidScanFrom_skip pixel (some t) true frames i frames.length ret hlen habove]
      exact solidScanFrom_flag pixel (some t) frames i ret hu hq haabb
        (by simpa using ht)
  · omega

/-- Witness for the amended C2: a solid frame above the threshold, away from
the player's corners, gets flagged and does not block. -/
theorem c2_occlusion_is_above_threshold_witness :
    solidScanFrom ⟨100, 100⟩ (some 0) true
        ([emptyTileFrameAt ⟨0, 0⟩, solidTileFrameAt ⟨100, 100⟩] : List Frame).length
        [emptyTileFrameAt ⟨0, 0⟩, solidTileFrameAt ⟨100, 100⟩] false false
      = ([emptyTileFrameAt ⟨0, 0⟩, solidTileFrameAt ⟨100, 100⟩].set 1
          { [emptyTileFrameAt ⟨0, 0⟩, solidTileFrameAt ⟨100, 100⟩].getD 1 default with
            player_is_under_this_frame := true },
         false) :=
  c2_occlusion_is_above_threshold ⟨100, 100⟩ 0 1 _ false (by decide)
    (fun j h1 h2 _ => by
      simp only [List.length_cons, List.length_nil] at h2
      omega)
    (by decide) (by decide) (by decide) (by decide)

/-! ## C1: which index `topmost_touched_frame` records -/

/-- A frame qualifies for `topmost_touched_frame` at index `i`: the index is in
range, some corner of the player's coarse hitbox lies in its AABB, and its
occlusion flag — as the pass sees it after the edit-mode clear (`ms = false`
clears it up front) — is not set. -/
def occQualifies (ms : Bool) (p : IVec2) (frames : List Frame) (i : Nat) : Prop :=
  i < frames.length ∧ cornerHit (frames.getD i default) p = true ∧
    (ms && (frames.getD i default).player_is_under_this_frame) = false

/-- The `topmost_touched_frame` accumulator update of one occlusion step. -/
theorem occlusionStep_tm (ms : Bool) (p : IVec2) (i : Nat) (tm : Option Nat) (nmf : Bool)
    (f : Frame) :
    (occlusionStep ms p i tm nmf f).2.1
      = if cornerHit f p && !(ms && f.player_is_under_this_frame) then some i else tm := by
  cases ms <;> rfl

/-- When no frame of the suffix qualifies, the accumulator passes through. -/
theorem occlusionGo_no_qual (ms : Bool) (p : IVec2) :
    ∀ (fs : List Frame) (i0 : Nat) (tm : Option Nat) (nmf : Bool),
      (∀ k, k < fs.length → ¬(cornerHit (fs.getD k default) p = true ∧
          (ms && (fs.getD k default).player_is_under_this_frame) = false)) →
      (occlusionGo ms p fs i0 tm nmf).2 = tm := by
  intro fs
  induction fs with
  | nil => intro i0 tm nmf _; rfl
  | cons f rest ih =>
    intro i0 tm nmf hno
    have hcons : (occlusionGo ms p (f :: rest) i0 tm nmf).2
        = (occlusionGo ms p rest (i0 + 1) (occlusionStep ms p i0 tm nmf f).2.1
            (occlusionStep ms p i0 tm nmf f).2.2).2 := rfl
    have htm : (occlusionStep ms p i0 tm nmf f).2.1 = tm := by
      have h0 := hno 0 (Nat.succ_pos _)
      rw [occlusionStep_tm]
      rcases hhit : cornerHit f p with _ | _
      · simp
      · rcases hund : (ms && f.player_is_under_this_frame) with _ | _
        · exact absurd ⟨by simpa using hhit, by simpa using hund⟩ h0
        · simp [hhit, hund]
    rw [hcons, htm]
    exact ih (i0 + 1) tm _ fun k hk hc => by
      have := hno (k + 1) (by rw [List.length_cons]; omega)
      simp only [List.getD_cons_succ] at this
      exact this hc

/-- When index `k` of the suffix qualifies and nothing after it does, the pass
records exactly `i0 + k`. -/
theorem occlusionGo_last_qual (ms : Bool) (p : IVec2) :
    ∀ (fs : List Frame) (i0 : Nat) (tm : Option Nat) (nmf : Bool) (k : Nat),
      k < fs.length →
      cornerHit (fs.getD k default) p = true →
      (ms && (fs.getD k default).player_is_under_this_frame) = false →
      (∀ k', k < k' → k' < fs.length → ¬(cornerHit (fs.getD k' default) p = true ∧
          (ms && (fs.getD k' default).player_is_under_this_frame) = false)) →
      (occlusionGo ms p fs i0 tm nmf).2 = some (i0 + k) := by
  intro fs
  induction fs with
  | nil => intro i0 tm nmf k hk; exact absurd hk (by simp)
  | cons f rest ih =>
    intro i0 tm nmf k hk hhit hund hmax
    have hcons : (occlusionGo ms p (f :: rest) i0 tm nmf).2
        = (occlusionGo ms p rest (i0 + 1) (occlusionStep ms p i0 tm nmf f).2.1
            (occlusionStep ms p i0 tm nmf f).2.2).2 := rfl
    rcases k with _ | k
    · have htm : (occlusionStep ms p i0 tm nmf f).2.1 = some i0 := by
        rw [occlusionStep_tm]
        simp only [List.getD_cons_zero] at hhit hund
        simp [hhit, hund]
      rw [hcons, htm]
      have hrest : ∀ k', k' < rest.length → ¬(cornerHit (rest.getD k' default) p = true ∧
          (ms && (rest.getD k' default).player_is_under_this_frame) = false) := by
        intro k' hk' hc
        have := hmax (k' + 1) (Nat.succ_pos _) (by rw [List.length_cons]; omega)
        simp only [List.getD_cons_succ] at this
        exact this hc
      rw [occlusionGo_no_qual ms p rest (i0 + 1) _ _ hrest]
      rw [Nat.add_zero]
    · rw [hcons]
      have hres := ih (i0 + 1) (occlusionStep ms p i0 tm nmf f).2.1
        (occlusionStep ms p i0 tm nmf f).2.2 k
        (by rw [List.length_cons] at hk; omega)
        (by simpa using hhit) (by simpa using hund)
        (fun k' h1 h2 hc => by
          have := hmax (k' + 1) (by omega) (by rw [List.length_cons]; omega)
          simp only [List.getD_cons_succ] at this
          exact this hc)
      rw [hres]
      congr 1
      omega

/-- **C1 counterexample.**  With movement started and two identical
non-occluded frames both containing all four hitbox corners of a player at the
origin, index 0 qualifies (so the lowest qualifying index is 0), yet the pass
records `topmost_touched_frame = 1`: the assignment in the ascending loop
overwrites, so the recorded index is the highest qualifying one, not the
lowest as the claim states. -/
theorem c1_counterexample :
    occQualifies true ⟨0, 0⟩ [emptyTileFrameAt ⟨0, 0⟩, emptyTileFrameAt ⟨0, 0⟩] 0 ∧
    occQualifies true ⟨0, 0⟩ [emptyTileFrameAt ⟨0, 0⟩, emptyTileFrameAt ⟨0, 0⟩] 1 ∧
    (occlusionPass true ⟨0, 0⟩ [emptyTileFrameAt ⟨0, 0⟩, emptyTileFrameAt ⟨0, 0⟩]).2
      = some 1 :=
  ⟨⟨by decide, by decide, by decide⟩, ⟨by decide, by decide, by decide⟩, by decide⟩

/-- **C1 amended.**  The occlusion bookkeeping pass records as
`topmost_touched_frame` the **last** (highest) list index among frames whose
AABB contains a hitbox-corner sample point and whose `under_player_frame` flag
is not set (after the edit-mode clear), not the first such index. -/
theorem c1_topmost_is_last_qualifying (ms : Bool) (p : IVec2) (frames : List Frame) (i : Nat)
    (hq : occQualifies ms p frames i)
    (hmax : ∀ j, i < j → ¬ occQualifies ms p frames j) :
    (occlusionPass ms p frames).2 = some i := by
  obtain ⟨hlt, hhit, hund⟩ := hq
  have h := occlusionGo_last_qual ms p frames 0 Option.none false i hlt hhit hund
    (fun k' h1 h2 hc => hmax k' h1 ⟨h2, hc.1, hc.2⟩)
  simpa using h

/-- Witness for the amended C1 at a concrete two-frame list. -/
theorem c1_topmost_is_last_qualifying_witness :
    (occlusionPass true ⟨0, 0⟩ [emptyTileFrameAt ⟨0, 0⟩, solidTileFrameAt ⟨0, 0⟩]).2
      = some 1 :=
  c1_topmost_is_last_qualifying true ⟨0, 0⟩ _ 1
    ⟨by decide, by decide, by decide⟩
    (fun j hj hq => by
      obtain ⟨h, -, -⟩ := hq
      simp only [List.length_cons, List.length_nil] at h
      omega)

/-! ## C7: sub-pixel remainder conservation -/

/-- `std::round` is at most half a unit away from its argument. -/
theorem cround_close (q : ℚ) : |q - (cround q : ℚ)| ≤ 1/2 := by
  rcases le_or_lt 0 q with hq | hq
  · have he : cround q = ⌊q + 1/2⌋ := by rw [cround, if_pos hq]
    have h1 : (⌊q + 1/2⌋ : ℚ) ≤ q + 1/2 := Int.floor_le _
    have h2 : q + 1/2 - 1 < (⌊q + 1/2⌋ : ℚ) := Int.sub_one_lt_floor _
    rw [he, abs_le]
    constructor <;> linarith
  · have he : cround q = -⌊-q + 1/2⌋ := by rw [cround, if_neg (by linarith)]
    have h1 : (⌊-q + 1/2⌋ : ℚ) ≤ -q + 1/2 := Int.floor_le _
    have h2 : -q + 1/2 - 1 < (⌊-q + 1/2⌋ : ℚ) := Int.sub_one_lt_floor _
    rw [he, abs_le]
    constructor <;> push_cast <;> linarith

/-- The damped remainder of one axis lies strictly inside `(-1, 1)`
(in fact inside `[-49/100, 49/100]`). -/
theorem dampedRemainder_mem (v c : ℚ) :
    -1 < dampedRemainder v c ∧ dampedRemainder v c < 1 := by
  have h := cround_close (v + c)
  rw [abs_le] at h
  rw [dampedRemainder, vel_damp]
  constructor <;> nlinarith [h.1, h.2]

/-- One axis attempt keeps the remainder vector or zeroes its active axis. -/
theorem stepAxis_vel_comp_cases (tm : Option Nat) (vert : Bool) (s : SweepState) :
    (stepAxis tm vert s).vel_comp = s.vel_comp ∨
    (stepAxis tm vert s).vel_comp = s.vel_comp.setComp vert 0 := by
  rw [stepAxis]
  dsimp only
  repeat' split
  all_goals first
    | exact Or.inl rfl
    | exact Or.inr rfl

/-- One axis attempt either keeps or zeroes each remainder component. -/
theorem stepAxis_vel_comp (tm : Option Nat) (vert : Bool) (s : SweepState) :
    ((stepAxis tm vert s).vel_comp.x = s.vel_comp.x ∨ (stepAxis tm vert s).vel_comp.x = 0) ∧
    ((stepAxis tm vert s).vel_comp.y = s.vel_comp.y ∨ (stepAxis tm vert s).vel_comp.y = 0) := by
  rcases stepAxis_vel_comp_cases tm vert s with h | h
  · rw [h]; exact ⟨Or.inl rfl, Or.inl rfl⟩
  · rw [h]
    cases vert
    · exact ⟨Or.inr rfl, Or.inl rfl⟩
    · exact ⟨Or.inl rfl, Or.inr rfl⟩

/-- The whole sweep either keeps or zeroes each remainder component. -/
theorem sweepFuel_vel_comp (tm : Option Nat) :
    ∀ (n : Nat) (s : SweepState),
      ((sweepFuel tm n s).vel_comp.x = s.vel_comp.x ∨ (sweepFuel tm n s).vel_comp.x = 0) ∧
      ((sweepFuel tm n s).vel_comp.y = s.vel_comp.y ∨ (sweepFuel tm n s).vel_comp.y = 0) := by
  intro n
  induction n with
  | zero => intro s; exact ⟨Or.inl rfl, Or.inl rfl⟩
  | succ n ih =>
    intro s
    rw [sweepFuel]
    split
    · exact ⟨Or.inl rfl, Or.inl rfl⟩
    · have h1 := stepAxis_vel_comp tm false s
      have h2 := stepAxis_vel_comp tm true (stepAxis tm false s)
      have h3 := ih (stepAxis tm true (stepAxis tm false s))
      constructor
      · rcases h3.1 with h | h
        · rw [h]
          rcases h2.1 with h' | h'
          · rw [h']; exact h1.1
          · exact Or.inr h'
        · exact Or.inr h
      · rcases h3.2 with h | h
        · rw [h]
          rcases h2.2 with h' | h'
          · rw [h']; exact h1.2
          · exact Or.inr h'
        · exact Or.inr h

/-- **C7.**  In the position update, each axis' new sub-pixel remainder is the
damped difference `(vel + vel_comp) − round(vel + vel_comp)` — `dampedRemainder`,
embedding lines 1087–1090 — except when the collision sweep zeroes that axis,
and in either case it lies strictly within `(−1, 1)`, for any velocity and any
carried remainder whatsoever. -/
theorem c7_subpixel_remainder (frames : List Frame) (tm : Option Nat) (pos : IVec2)
    (vel vel_comp : FVec2) :
    ((positionUpdate frames tm pos vel vel_comp).vel_comp.x = dampedRemainder vel.x vel_comp.x ∨
      (positionUpdate frames tm pos vel vel_comp).vel_comp.x = 0) ∧
    ((positionUpdate frames tm pos vel vel_comp).vel_comp.y = dampedRemainder vel.y vel_comp.y ∨
      (positionUpdate frames tm pos vel vel_comp).vel_comp.y = 0) ∧
    (-1 < (positionUpdate frames tm pos vel vel_comp).vel_comp.x ∧
      (positionUpdate frames tm pos vel vel_comp).vel_comp.x < 1) ∧
    (-1 < (positionUpdate frames tm pos vel vel_comp).vel_comp.y ∧
      (positionUpdate frames tm pos vel vel_comp).vel_comp.y < 1) := by
  have hs := sweepFuel_vel_comp tm (sweepMeasure (croundVec (vel + vel_comp)))
    ⟨croundVec (vel + vel_comp), pos, vel,
      ⟨dampedRemainder vel.x vel_comp.x, dampedRemainder vel.y vel_comp.y⟩, frames, false⟩
  have hdx : (positionUpdate frames tm pos vel vel_comp).vel_comp.x
      = (sweepFuel tm (sweepMeasure (croundVec (vel + vel_comp)))
          ⟨croundVec (vel + vel_comp), pos, vel,
            ⟨dampedRemainder vel.x vel_comp.x, dampedRemainder vel.y vel_comp.y⟩,
            frames, false⟩).vel_comp.x := rfl
  have hdy : (positionUpdate frames tm pos vel vel_comp).vel_comp.y
      = (sweepFuel tm (sweepMeasure (croundVec (vel + vel_comp)))
          ⟨croundVec (vel + vel_comp), pos, vel,
            ⟨dampedRemainder vel.x vel_comp.x, dampedRemainder vel.y vel_comp.y⟩,
            frames, false⟩).vel_comp.y := rfl
  have hmx := dampedRemainder_mem vel.x vel_comp.x
  have hmy := dampedRemainder_mem vel.y vel_comp.y
  refine ⟨?_, ?_, ?_, ?_⟩
  · rw [hdx]; exact hs.1
  · rw [hdy]; exact hs.2
  · rw [hdx]
    rcases hs.1 with h | h <;> rw [h]
    · exact hmx
    · norm_num
  · rw [hdy]
    rcases hs.2 with h | h <;> rw [h]
    · exact hmy
    · norm_num

/-! ## C6: drag start rotates the hovered frame to the back -/

/-- **C6.**  A fresh mouse press over a hovered frame runs
`std::rotate(begin + i, begin + i + 1, end)`, embedded as `promoteToBack`
(used by `dragPhase`): the new list is the old list with the element at the
hovered index moved to the end, and the remaining elements — `l.eraseIdx i` —
keep exactly their relative order (they form a sublist of the original). -/
theorem c6_drag_start_rotation (l : List Frame) (i : Nat) (h : i < l.length) :
    promoteToBack l i = l.eraseIdx i ++ [l.getD i default] ∧
    List.Sublist (l.eraseIdx i) l := by
  constructor
  · have h1 : l.get? i = some (l.getD i default) := by
      rw [List.get?_eq_getElem?, List.getElem?_eq_getElem h, List.getD_eq_getElem _ _ h]
    rw [promoteToBack, h1]
    simp [List.eraseIdx_eq_take_drop_succ]
  · exact List.eraseIdx_sublist l i

/-- Witness for C6 at a concrete two-frame list and index 0. -/
theorem c6_drag_start_rotation_witness :
    (0 : Nat) < ([solidTileFrameAt ⟨0, 16⟩, emptyTileFrameAt ⟨0, 0⟩] : List Frame).length ∧
    promoteToBack [solidTileFrameAt ⟨0, 16⟩, emptyTileFrameAt ⟨0, 0⟩] 0 =
      List.eraseIdx [solidTileFrameAt ⟨0, 16⟩, emptyTileFrameAt ⟨0, 0⟩] 0 ++
        [List.getD [solidTileFrameAt ⟨0, 16⟩, emptyTileFrameAt ⟨0, 0⟩] 0 default] ∧
    List.Sublist (List.eraseIdx [solidTileFrameAt ⟨0, 16⟩, emptyTileFrameAt ⟨0, 0⟩] 0)
      [solidTileFrameAt ⟨0, 16⟩, emptyTileFrameAt ⟨0, 0⟩] :=
  ⟨by decide,
   (c6_drag_start_rotation _ 0 (by decide)).1,
   (c6_drag_start_rotation _ 0 (by decide)).2⟩

/-! ## C9: the defensive branch of `QueryWorldPixel` is unreachable -/

/-- On a pixel that passes the AABB rectangle check, the derived tile
coordinate lies inside the tile grid bounds (this needs no grid-shape
hypothesis: the bounds only involve `TileSize`). -/
theorem tileCoord_in_bounds (f : Frame) (pixel : IVec2)
    (h : f.WorldPixelIsInRect pixel = true) :
    0 ≤ (f.tileCoord pixel).x ∧ (f.tileCoord pixel).x < f.type.TileSize.x ∧
    0 ≤ (f.tileCoord pixel).y ∧ (f.tileCoord pixel).y < f.type.TileSize.y := by
  have hx1 : pixel.x ≥ f.TopLeftCorner.x := by
    simp only [Frame.WorldPixelIsInRect, Bool.and_eq_true, decide_eq_true_eq] at h
    exact h.1.1.1
  have hy1 : pixel.y ≥ f.TopLeftCorner.y := by
    simp only [Frame.WorldPixelIsInRect, Bool.and_eq_true, decide_eq_true_eq] at h
    exact h.1.1.2
  have hx2 : pixel.x < f.TopLeftCorner.x + f.type.TileSize.x * tile_size := by
    simp only [Frame.WorldPixelIsInRect, Bool.and_eq_true, decide_eq_true_eq] at h
    have := h.1.2
    simpa [Frame.PixelSize, FrameType.PixelSize, IVec2.scale, instAddIVec2] using this
  have hy2 : pixel.y < f.TopLeftCorner.y + f.type.TileSize.y * tile_size := by
    simp only [Frame.WorldPixelIsInRect, Bool.and_eq_true, decide_eq_true_eq] at h
    have := h.2
    simpa [Frame.PixelSize, FrameType.PixelSize, IVec2.scale, instAddIVec2] using this
  have hts : (0 : Int) < tile_size := by norm_num [tile_size]
  have hcx : (f.tileCoord pixel).x = (pixel.x - f.TopLeftCorner.x).tdiv tile_size := rfl
  have hcy : (f.tileCoord pixel).y = (pixel.y - f.TopLeftCorner.y).tdiv tile_size := rfl
  have hex : (pixel.x - f.TopLeftCorner.x).tdiv tile_size
      = (pixel.x - f.TopLeftCorner.x) / tile_size :=
    Int.tdiv_eq_ediv (by omega) (by norm_num [tile_size])
  have hey : (pixel.y - f.TopLeftCorner.y).tdiv tile_size
      = (pixel.y - f.TopLeftCorner.y) / tile_size :=
    Int.tdiv_eq_ediv (by omega) (by norm_num [tile_size])
  refine ⟨?_, ?_, ?_, ?_⟩
  · rw [hcx, hex]; exact Int.ediv_nonneg (by omega) (by norm_num [tile_size])
  · rw [hcx, hex]; exact (Int.ediv_lt_iff_lt_mul hts).mpr (by omega)
  · rw [hcy, hey]; exact Int.ediv_nonneg (by omega) (by norm_num [tile_size])
  · rw [hcy, hey]; exact (Int.ediv_lt_iff_lt_mul hts).mpr (by omega)

/-- **C9.**  For a frame whose template rows all have the first row's length,
`QueryWorldPixel` never reaches its defensive out-of-range branch: at every
query pixel the assertion test is false, and whenever the AABB rectangle check
passes, the tile-grid character lookup is in range. -/
theorem c9_query_assert_unreachable (f : Frame)
    (hrect : ∀ r ∈ f.type.tiles, (r.length : Int) = f.type.TileSize.x) :
    ∀ pixel : IVec2, f.queryHitsAssert pixel = false ∧
      (f.WorldPixelIsInRect pixel = true →
        (f.type.charAt (f.tileCoord pixel).x (f.tileCoord pixel).y).isSome = true) := by
  intro pixel
  constructor
  · rcases hR : f.WorldPixelIsInRect pixel with _ | _
    · simp only [Frame.queryHitsAssert, hR, Bool.false_and]
    · obtain ⟨b1, b2, b3, b4⟩ := tileCoord_in_bounds f pixel hR
      simp only [Frame.queryHitsAssert, hR, Bool.true_and, Bool.or_eq_false_iff,
        decide_eq_false_iff_not, not_lt, not_le]
      omega
  · intro hR
    obtain ⟨b1, b2, b3, b4⟩ := tileCoord_in_bounds f pixel hR
    rcases htiles : f.type.tiles with _ | ⟨r0, rest⟩
    · exfalso
      have : f.type.TileSize.x = 0 := by simp [FrameType.TileSize, htiles]
      omega
    · have hlen : f.type.TileSize.y = (f.type.tiles.length : Int) := by
        simp [FrameType.TileSize, htiles]
      have hylt : (f.tileCoord pixel).y.toNat < f.type.tiles.length := by omega
      have hrow : f.type.tiles[(f.tileCoord pixel).y.toNat]?
          = some f.type.tiles[(f.tileCoord pixel).y.toNat] :=
        List.getElem?_eq_getElem hylt
      have hmem : f.type.tiles[(f.tileCoord pixel).y.toNat] ∈ f.type.tiles :=
        List.getElem_mem hylt
      have hrowlen := hrect _ hmem
      have hxlt : (f.tileCoord pixel).x.toNat
          < (f.type.tiles[(f.tileCoord pixel).y.toNat]).toList.length := by
        have h2 : ((f.type.tiles[(f.tileCoord pixel).y.toNat]).toList.length : Int)
            = f.type.TileSize.x := hrowlen
        omega
      simp only [FrameType.charAt, List.get?_eq_getElem?, hrow, Option.some_bind]
      rw [List.getElem?_eq_getElem hxlt]
      rfl

/-! ## C4: win gating -/

/-- A 1×1 empty frame at the origin carrying a resolved exit at offset `(0,0)`. -/
def exitFrameAtOrigin : Frame :=
  { emptyTileFrameAt ⟨0, 0⟩ with exit_pos := some ⟨0, 0⟩ }

/-- With a nonzero stored key counter, interacting with a frame never fires
the exit. -/
theorem interactFrame_no_win (ppos : IVec2) (nrk : Int) (f : Frame) (h : nrk ≠ 0) :
    (interactFrame ppos nrk f).2 = false := by
  rw [interactFrame]
  rcases hx : f.exit_pos with _ | e
  · rfl
  · dsimp only
    have hd : decide (nrk = 0) = false := decide_eq_false h
    simp [hd]

/-- With a nonzero stored key counter, the interaction pass never triggers
the winning transition. -/
theorem entityInteractions_no_win (ms pe : Bool) (frames : List Frame) (ppos : IVec2)
    (nrk : Int) (h : nrk ≠ 0) :
    (entityInteractions ms pe frames ppos nrk).2.2 = false := by
  rw [entityInteractions]
  split
  · rcases hf : findInteractFrom ppos frames.length frames with _ | i
    · rfl
    · dsimp only
      exact interactFrame_no_win ppos nrk _ h
  · rfl

/-- The world phase of a tick keeps the winning flag off whenever the stored
key counter is nonzero. -/
theorem tickWorldPhase_winning (inp : Inp) (s5 : GState)
    (hk : s5.num_remaining_keys ≠ 0) (hw : s5.winning_fade_out = false) :
    (tickWorldPhase inp s5).winning_fade_out = false := by
  rw [tickWorldPhase]
  dsimp only
  rw [deathBoundsPhase_winning, playerPhase_winning]
  dsimp only
  rw [hw, entityInteractions_no_win _ _ _ _ _ hk]
  rfl

/-- **C4 counterexample.**  Remaining-keys counter 0, movement started, player
existing and positioned exactly at the exit offset of frame 0 — but frame 1
(no exit) also contains the player's pixel and is topmost, so the interaction
pass consumes the interaction there and no Winning transition happens on the
tick; the frames are left unchanged. -/
theorem c4_counterexample :
    (emptyTileFrameAt ⟨0, 0⟩).WorldPixelIsInRect ⟨0, 0⟩ = true ∧
    exitFrameAtOrigin.exit_pos = some ⟨0, 0⟩ ∧
    nearExit ⟨0, 0⟩ (exitFrameAtOrigin.pos + ⟨0, 0⟩) = true ∧
    (entityInteractions true true [exitFrameAtOrigin, emptyTileFrameAt ⟨0, 0⟩] ⟨0, 0⟩ 0).2.2
      = false ∧
    (entityInteractions true true [exitFrameAtOrigin, emptyTileFrameAt ⟨0, 0⟩] ⟨0, 0⟩ 0).2.1
      = true :=
  ⟨by decide, by decide, by decide, by decide, by decide⟩

/-- **C4 amended.**  On any tick entered with the winning fade off and the
stored remaining-keys counter nonzero, the tick never turns on the winning
fade; and when the counter is zero, the player exists, movement started, and
the frame holding the exit is the topmost non-occluded frame containing the
player's pixel with the player within the fixed exit distance, the interaction
pass does trigger Winning: the winning fade starts and the player's existence
is cleared. -/
theorem c4_win_gating :
    (∀ (inp : Inp) (s s' : GState), s.winning_fade_out = false →
      s.num_remaining_keys ≠ 0 → TickModel inp s = some s' →
      s'.winning_fade_out = false) ∧
    (∀ (frames : List Frame) (ppos : IVec2) (i : Nat) (e : IVec2),
      findInteractFrom ppos frames.length frames = some i →
      (frames.getD i default).exit_pos = some e →
      nearExit ppos ((frames.getD i default).pos + e) = true →
      (entityInteractions true true frames ppos 0).2.2 = true ∧
      (entityInteractions true true frames ppos 0).2.1 = false) := by
  constructor
  · intro inp s s' hW hK hTick
    rw [TickModel] at hTick
    split at hTick
    · cases hTick
    · rename_i s5 hs5
      obtain ⟨hw5, hk5, -⟩ := tickFramePhase_ok inp s s5 hs5
      exact deathTimerPhase_winning _ s'
        (tickWorldPhase_winning inp s5 (by rw [hk5]; exact hK) (by rw [hw5]; exact hW))
        hTick
  · intro frames ppos i e hf hexit hnear
    have hcond : (decide ((0 : Int) = 0)
        && nearExit ppos ((frames.getD i default).pos + e)) = true := by
      rw [hnear]
      rfl
    have hwin : (interactFrame ppos 0 (frames.getD i default)).2 = true := by
      rw [interactFrame, hexit]
      dsimp only
      rw [if_pos hcond]
    rw [entityInteractions, if_pos (show ((true && true) = true) from rfl), hf]
    dsimp only
    constructor
    · exact hwin
    · rw [hwin]
      rfl

/-- Witness for the amended C4: a tick at a covered-exit state with one key
left never wins, and an uncovered exit with zero keys wins in the pass. -/
theorem c4_win_gating_witness :
    ((TickModel
        ⟨⟨⟨-200, -130⟩, false, false⟩,
         ⟨⟨false, false⟩, ⟨false, false⟩, ⟨false, false⟩, ⟨false, false⟩⟩⟩
        ⟨[exitFrameAtOrigin, emptyTileFrameAt ⟨0, 0⟩], 0, false,
          { defaultPlayer with exists_ := true }, true, false, 1, true⟩).elim True
      fun s' => s'.winning_fade_out = false) ∧
    (entityInteractions true true [exitFrameAtOrigin] ⟨0, 0⟩ 0).2.2 = true := by
  constructor
  · rcases hEq : TickModel
        ⟨⟨⟨-200, -130⟩, false, false⟩,
         ⟨⟨false, false⟩, ⟨false, false⟩, ⟨false, false⟩, ⟨false, false⟩⟩⟩
        ⟨[exitFrameAtOrigin, emptyTileFrameAt ⟨0, 0⟩], 0, false,
          { defaultPlayer with exists_ := true }, true, false, 1, true⟩ with _ | s'
    · exact trivial
    · exact c4_win_gating.1 _ _ s' (by decide) (by decide) hEq
  · exact (c4_win_gating.2 [exitFrameAtOrigin] ⟨0, 0⟩ 0 ⟨0, 0⟩ (by decide) (by decide)
      (by decide)).1

/-! ## C5: key collection -/

/-- `getD` after `set` at the written index. -/
theorem getD_set_self (l : List Frame) (i : Nat) (v : Frame) (h : i < l.length) :
    (l.set i v).getD i default = v := by
  simp [List.getD_eq_getElem?_getD, List.getElem?_set_self, h]

/-- `getD` after `set` at a different index. -/
theorem getD_set_ne (l : List Frame) (i j : Nat) (v : Frame) (h : i ≠ j) :
    (l.set i v).getD j default = l.getD j default := by
  simp [List.getD_eq_getElem?_getD, List.getElem?_set_ne h]

/-- The interaction target index is always in range. -/
theorem findInteractFrom_lt (ppos : IVec2) :
    ∀ (n : Nat) (frames : List Frame) (i : Nat),
      findInteractFrom ppos n frames = some i → i < n := by
  intro n
  induction n with
  | zero => intro frames i h; cases h
  | succ n ih =>
    intro frames i h
    rw [findInteractFrom] at h
    split at h
    · cases h; omega
    · have := ih frames i h
      omega

/-- Interacting with one frame filters out exactly the keys in pickup range,
and never moves the frame. -/
theorem interactFrame_keys (ppos : IVec2) (nrk : Int) (f : Frame) :
    (interactFrame ppos nrk f).1.key_positions
      = f.key_positions.filter (fun k => !keyNear ppos (f.pos + k)) ∧
    (interactFrame ppos nrk f).1.pos = f.pos := by
  rw [interactFrame]
  rcases hx : f.exit_pos with _ | e
  · exact ⟨rfl, rfl⟩
  · dsimp only
    split <;> exact ⟨rfl, rfl⟩

/-- A 1×1 empty frame at the origin carrying one uncollected key at offset
`(12, 0)` — the key's world position is outside the frame's own AABB. -/
def keyFrameAtOrigin : Frame :=
  { emptyTileFrameAt ⟨0, 0⟩ with key_positions := [⟨12, 0⟩] }

/-- **C5 counterexample.**  Movement started, player existing at `(9, 0)`,
within the fixed pickup distance of the key at world position `(12, 0)` —
but the key's frame does not contain the player's pixel, so the interaction
pass leaves the key list untouched on that tick, contradicting the claim that
every in-range key offset is removed. -/
theorem c5_counterexample :
    keyNear ⟨9, 0⟩ (keyFrameAtOrigin.pos + ⟨12, 0⟩) = true ∧
    keyFrameAtOrigin.WorldPixelIsInRect ⟨9, 0⟩ = false ∧
    (entityInteractions true true [keyFrameAtOrigin] ⟨9, 0⟩ 1).1 = [keyFrameAtOrigin] ∧
    ((entityInteractions true true [keyFrameAtOrigin] ⟨9, 0⟩ 1).1.getD 0 default).key_positions
      = [⟨12, 0⟩] :=
  ⟨by decide, by decide, by decide, by decide⟩

/-- **C5 amended.**  On a tick with the player existing and movement started,
only the topmost non-occluded frame whose AABB contains the player's pixel has
its keys collected: every key offset of that frame within the fixed pickup
distance is removed (the list becomes the filter of the out-of-range ones) and
every other frame is left exactly unchanged; moreover the interaction pass
never adds a key offset to any frame, so removed offsets are never re-added
outside a full restart/reload. -/
theorem c5_key_collection :
    (∀ (ms pe : Bool) (frames : List Frame) (ppos : IVec2) (nrk : Int) (j : Nat),
      List.Sublist
        ((entityInteractions ms pe frames ppos nrk).1.getD j default).key_positions
        ((frames.getD j default).key_positions)) ∧
    (∀ (frames : List Frame) (ppos : IVec2) (nrk : Int) (i : Nat),
      findInteractFrom ppos frames.length frames = some i →
      ((entityInteractions true true frames ppos nrk).1.getD i default).key_positions
        = (frames.getD i default).key_positions.filter
            (fun k => !keyNear ppos ((frames.getD i default).pos + k)) ∧
      ∀ j, j ≠ i →
        (entityInteractions true true frames ppos nrk).1.getD j default
          = frames.getD j default) := by
  constructor
  · intro ms pe frames ppos nrk j
    rw [entityInteractions]
    split
    · rcases hf : findInteractFrom ppos frames.length frames with _ | i
      · exact List.Sublist.refl _
      · dsimp only
        have hi := findInteractFrom_lt ppos frames.length frames i hf
        by_cases hij : j = i
        · subst hij
          rw [getD_set_self _ _ _ hi, (interactFrame_keys ppos nrk _).1]
          exact List.filter_sublist _
        · rw [getD_set_ne _ _ _ _ (fun he => hij he.symm)]
    · exact List.Sublist.refl _
  · intro frames ppos nrk i hf
    have hi := findInteractFrom_lt ppos frames.length frames i hf
    rw [entityInteractions, if_pos (show ((true && true) = true) from rfl), hf]
    dsimp only
    constructor
    · rw [getD_set_self _ _ _ hi, (interactFrame_keys ppos nrk _).1]
    · intro j hij
      rw [getD_set_ne _ _ _ _ (fun he => hij he.symm)]

/-- A 1×1 empty frame at the origin with one key in pickup range of the
origin and one far away. -/
def keyFrameTwoKeys : Frame :=
  { emptyTileFrameAt ⟨0, 0⟩ with key_positions := [⟨2, 0⟩, ⟨30, 0⟩] }

/-- Witness for the amended C5: the in-range key is removed, the far one kept,
and the result is a sublist of the original key list. -/
theorem c5_key_collection_witness :
    ((entityInteractions true true [keyFrameTwoKeys] ⟨0, 0⟩ 5).1.getD 0 default).key_positions
      = (([keyFrameTwoKeys] : List Frame).getD 0 default).key_positions.filter
          (fun k => !keyNear ⟨0, 0⟩ ((([keyFrameTwoKeys] : List Frame).getD 0 default).pos + k)) ∧
    List.Sublist
      ((entityInteractions true true [keyFrameTwoKeys] ⟨0, 0⟩ 5).1.getD 0 default).key_positions
      ((([keyFrameTwoKeys] : List Frame).getD 0 default).key_positions) :=
  ⟨(c5_key_collection.2 [keyFrameTwoKeys] ⟨0, 0⟩ 5 0 (by decide)).1,
   c5_key_collection.1 true true [keyFrameTwoKeys] ⟨0, 0⟩ 5 0⟩

/-! ## C10: the drag invariant -/

/-- At most one frame is dragged, and a dragged frame is the last of the
list. -/
def DragInv (frames : List Frame) : Prop :=
  ∀ j, j < frames.length → (frames.getD j default).dragged = true →
    j = frames.length - 1

/-- `getD` beyond the end of the list. -/
theorem getD_out_of_range (l : List Frame) (j : Nat) (h : l.length ≤ j) :
    l.getD j default = default := by
  rw [List.getD_eq_getElem?_getD, List.getElem?_eq_none h, Option.getD_none]

/-- The invariant transfers along any rewrite of the list that keeps length
and the dragged flags. -/
def SameDragged (a b : List Frame) : Prop :=
  b.length = a.length ∧ ∀ j, (b.getD j default).dragged = (a.getD j default).dragged

theorem SameDragged.refl (a : List Frame) : SameDragged a a := ⟨rfl, fun _ => rfl⟩

theorem SameDragged.trans {a b c : List Frame} (h1 : SameDragged a b)
    (h2 : SameDragged b c) : SameDragged a c :=
  ⟨h2.1.trans h1.1, fun j => (h2.2 j).trans (h1.2 j)⟩

theorem DragInv_congr (a b : List Frame) (h : SameDragged a b) :
    DragInv a → DragInv b := by
  intro ha j hj hd
  rw [h.1]
  rw [h.1] at hj
  rw [h.2 j] at hd
  exact ha j hj hd

/-- Replacing one element with one of equal dragged flag keeps all dragged
flags. -/
theorem set_dragged_pointwise (l : List Frame) (i : Nat) (v : Frame)
    (hv : v.dragged = (l.getD i default).dragged) (j : Nat) :
    ((l.set i v).getD j default).dragged = (l.getD j default).dragged := by
  by_cases hij : i = j
  · subst hij
    by_cases hi : i < l.length
    · rw [getD_set_self _ _ _ hi, hv]
    · rw [List.set_eq_of_length_le (by omega)]
  · rw [getD_set_ne _ _ _ _ hij]

theorem SameDragged_set (l : List Frame) (i : Nat) (v : Frame)
    (hv : v.dragged = (l.getD i default).dragged) :
    SameDragged l (l.set i v) :=
  ⟨List.length_set l i v, set_dragged_pointwise l i v hv⟩

/-- Any write to the back of the list keeps the invariant. -/
theorem DragInv_set_last (l : List Frame) (v : Frame) (h : DragInv l) :
    DragInv (l.set (l.length - 1) v) := by
  intro j hj hd
  rw [List.length_set] at hj ⊢
  by_cases hji : j = l.length - 1
  · exact hji
  · rw [getD_set_ne _ _ _ _ (fun he => hji he.symm)] at hd
    exact h j hj hd

theorem DragInv_updateBack (l : List Frame) (g : Frame → Frame) (h : DragInv l) :
    DragInv (updateBack l g) :=
  DragInv_set_last l _ h

theorem DragInv_of_all_false (l : List Frame) (hall : ∀ f ∈ l, f.dragged = false) :
    DragInv l := by
  intro j hj hd
  exfalso
  have hmem : l.getD j default ∈ l := by
    rw [List.getD_eq_getElem _ _ hj]
    exact List.getElem_mem hj
  rw [hall _ hmem] at hd
  cases hd

theorem all_false_getD (l : List Frame) (hall : ∀ f ∈ l, f.dragged = false) (j : Nat) :
    (l.getD j default).dragged = false := by
  by_cases hj : j < l.length
  · have hmem : l.getD j default ∈ l := by
      rw [List.getD_eq_getElem _ _ hj]
      exact List.getElem_mem hj
    exact hall _ hmem
  · rw [getD_out_of_range _ _ (by omega)]
    rfl

theorem DragInv_of_getD_false (l : List Frame)
    (hall : ∀ j, (l.getD j default).dragged = false) : DragInv l := by
  intro j hj hd
  rw [hall j] at hd
  cases hd

/-- Every element of the rotated list comes from the original list. -/
theorem mem_promoteToBack (l : List Frame) (i : Nat) (x : Frame)
    (hx : x ∈ promoteToBack l i) : x ∈ l := by
  rw [promoteToBack] at hx
  rcases List.mem_append.mp hx with h1 | h2
  · rcases List.mem_append.mp h1 with ha | hb
    · exact List.mem_of_mem_take ha
    · exact List.mem_of_mem_drop hb
  · rcases hg : l.get? i with _ | f
    · rw [hg] at h2
      cases h2
    · rw [hg] at h2
      have hxf : x = f := by simpa using h2
      rw [hxf]
      exact List.get?_mem hg

/-- Rotating the last element to the back is the identity. -/
theorem promoteToBack_last (l : List Frame) (hne : 0 < l.length) :
    promoteToBack l (l.length - 1) = l := by
  have hlt : l.length - 1 < l.length := by omega
  have hdrop1 : l.drop (l.length - 1 + 1) = [] := by
    rw [Nat.sub_add_cancel (by omega)]
    exact List.drop_length l
  have hget : l.get? (l.length - 1) = some l[l.length - 1] := by
    rw [List.get?_eq_getElem?]
    exact List.getElem?_eq_getElem hlt
  have hdrop2 : l.drop (l.length - 1) = [l[l.length - 1]] := by
    rw [List.drop_eq_getElem_cons hlt, Nat.sub_add_cancel (by omega), List.drop_length]
  rw [promoteToBack, hdrop1, hget]
  have := List.take_append_drop (l.length - 1) l
  rw [hdrop2] at this
  simpa using this

/-- `any dragged` in terms of indexed access. -/
theorem any_dragged_iff (l : List Frame) :
    l.any (·.dragged) = true ↔
      ∃ j, j < l.length ∧ (l.getD j default).dragged = true := by
  rw [List.any_eq_true]
  constructor
  · rintro ⟨f, hf, hd⟩
    obtain ⟨j, hj, hjf⟩ := List.mem_iff_getElem.mp hf
    refine ⟨j, hj, ?_⟩
    rw [List.getD_eq_getElem _ _ hj, hjf]
    simpa using hd
  · rintro ⟨j, hj, hd⟩
    refine ⟨l.getD j default, ?_, by simpa using hd⟩
    rw [List.getD_eq_getElem _ _ hj]
    exact List.getElem_mem hj

theorem SameDragged_any (a b : List Frame) (h : SameDragged a b) :
    b.any (·.dragged) = a.any (·.dragged) := by
  apply Bool.coe_iff_coe.mp
  rw [any_dragged_iff, any_dragged_iff]
  constructor
  · rintro ⟨j, hj, hd⟩
    exact ⟨j, by rw [← h.1]; exact hj, by rw [← h.2 j]; exact hd⟩
  · rintro ⟨j, hj, hd⟩
    exact ⟨j, by rw [h.1]; exact hj, by rw [h.2 j]; exact hd⟩

/-! ### C10: no phase other than dragging touches list order or drag flags -/

theorem resetButtonPhase_frames (inp : Inp) (s : GState) :
    (resetButtonPhase inp s).frames = s.frames := by
  rw [resetButtonPhase]; split <;> rfl

theorem frameClickDeathPhase_frames (inp : Inp) (s : GState) :
    (frameClickDeathPhase inp s).frames = s.frames := by
  rw [frameClickDeathPhase]
  split
  · split <;> rfl
  · rfl

theorem deathBoundsPhase_frames (s : GState) :
    (deathBoundsPhase s).frames = s.frames := by
  rw [deathBoundsPhase]; split <;> rfl

theorem hoverTimeStep_dragged (f : Frame) : (hoverTimeStep f).dragged = f.dragged := by
  rw [hoverTimeStep]
  dsimp only
  repeat' split
  all_goals rfl

theorem hoverScanFrom_sameDragged (rh w : Bool) (mpos : IVec2) :
    ∀ (n : Nat) (frames : List Frame) (found : Bool),
      SameDragged frames (hoverScanFrom rh w mpos n frames found).1 := by
  intro n
  induction n with
  | zero => intro frames found; exact SameDragged.refl _
  | succ n ih =>
    intro frames found
    rw [hoverScanFrom]
    dsimp only
    split
    · exact (SameDragged_set frames n
        { frames.getD n default with hovered := true } rfl).trans (ih _ true)
    · exact (SameDragged_set frames n
        { frames.getD n default with hovered := false } rfl).trans (ih _ found)

theorem map_hoverTimeStep_sameDragged (l : List Frame) :
    SameDragged l (l.map hoverTimeStep) := by
  refine ⟨List.length_map l hoverTimeStep, fun j => ?_⟩
  by_cases hj : j < l.length
  · rw [List.getD_eq_getElem _ _ (by simpa using hj), List.getD_eq_getElem _ _ hj,
      List.getElem_map]
    exact hoverTimeStep_dragged _
  · rw [getD_out_of_range _ _ (by simpa using Nat.le_of_not_lt hj),
      getD_out_of_range _ _ (Nat.le_of_not_lt hj)]

theorem occlusionStep_dragged (ms : Bool) (p : IVec2) (i : Nat) (tm : Option Nat)
    (nmf : Bool) (f : Frame) :
    (occlusionStep ms p i tm nmf f).1.dragged = f.dragged := rfl

theorem occlusionGo_sameDragged (ms : Bool) (p : IVec2) :
    ∀ (fs : List Frame) (i0 : Nat) (tm : Option Nat) (nmf : Bool),
      SameDragged fs (occlusionGo ms p fs i0 tm nmf).1 := by
  intro fs
  induction fs with
  | nil => intro i0 tm nmf; exact SameDragged.refl _
  | cons f rest ih =>
    intro i0 tm nmf
    have hcons : (occlusionGo ms p (f :: rest) i0 tm nmf).1
        = (occlusionStep ms p i0 tm nmf f).1
          :: (occlusionGo ms p rest (i0 + 1) (occlusionStep ms p i0 tm nmf f).2.1
              (occlusionStep ms p i0 tm nmf f).2.2).1 := rfl
    rw [hcons]
    have hrest := ih (i0 + 1) (occlusionStep ms p i0 tm nmf f).2.1
      (occlusionStep ms p i0 tm nmf f).2.2
    refine ⟨by simp [hrest.1], fun j => ?_⟩
    rcases j with _ | j
    · simp only [List.getD_cons_zero]
      exact occlusionStep_dragged ms p i0 tm nmf f
    · simp only [List.getD_cons_succ]
      exact hrest.2 j

theorem solidScanFrom_sameDragged (pixel : IVec2) (tm : Option Nat) (update : Bool) :
    ∀ (k : Nat) (frames : List Frame) (found ret : Bool),
      SameDragged frames (solidScanFrom pixel tm update k frames found ret).1 := by
  intro k
  induction k with
  | zero => intro frames found ret; exact SameDragged.refl _
  | succ k ih =>
    intro frames found ret
    rw [solidScanFrom]
    dsimp only
    split
    · split
      · split
        · exact (SameDragged_set frames k
            { frames.getD k default with player_is_under_this_frame := true } rfl).trans
            (ih _ _ _)
        · exact ih _ _ _
      · exact ih _ _ _
    · exact ih _ _ _

theorem SolidAtOffset_sameDragged (frames : List Frame) (playerPos : IVec2)
    (tm : Option Nat) (offset : IVec2) (update : Bool) :
    SameDragged frames (SolidAtOffset frames playerPos tm offset update).1 := by
  rw [SolidAtOffset]
  have h2 : ∀ (qs : List IVec2) (fr : List Frame) (b : Bool),
      SameDragged fr (qs.foldl (fun st point =>
        solidScanFrom (playerPos + point + offset) tm update st.1.length st.1 false st.2)
        (fr, b)).1 := by
    intro qs
    induction qs with
    | nil => intro fr b; exact SameDragged.refl _
    | cons q qs ihq =>
      intro fr b
      rw [List.foldl_cons]
      exact (solidScanFrom_sameDragged (playerPos + q + offset) tm update
        fr.length fr false b).trans
        (ihq (solidScanFrom (playerPos + q + offset) tm update fr.length fr false b).1
             (solidScanFrom (playerPos + q + offset) tm update fr.length fr false b).2)
  exact h2 player_hitbox_full frames false

theorem stepAxis_sameDragged (tm : Option Nat) (vert : Bool) (s : SweepState) :
    SameDragged s.frames (stepAxis tm vert s).frames := by
  rw [stepAxis]
  dsimp only
  split
  · exact SameDragged.refl _
  · split <;> split <;>
      (dsimp only; exact SolidAtOffset_sameDragged s.frames s.pos tm _ true)

theorem sweepFuel_sameDragged (tm : Option Nat) :
    ∀ (n : Nat) (s : SweepState), SameDragged s.frames (sweepFuel tm n s).frames := by
  intro n
  induction n with
  | zero => intro s; exact SameDragged.refl _
  | succ n ih =>
    intro s
    rw [sweepFuel]
    split
    · exact SameDragged.refl _
    · exact ((stepAxis_sameDragged tm false s).trans
        (stepAxis_sameDragged tm true _)).trans (ih _)

theorem positionUpdate_sameDragged (frames : List Frame) (tm : Option Nat) (pos : IVec2)
    (vel vel_comp : FVec2) :
    SameDragged frames (positionUpdate frames tm pos vel vel_comp).frames :=
  sweepFuel_sameDragged tm _ _

theorem interactFrame_dragged (ppos : IVec2) (nrk : Int) (f : Frame) :
    (interactFrame ppos nrk f).1.dragged = f.dragged := by
  rw [interactFrame]
  rcases hx : f.exit_pos with _ | e
  · rfl
  · dsimp only
    split <;> rfl

theorem entityInteractions_sameDragged (ms pe : Bool) (frames : List Frame)
    (ppos : IVec2) (nrk : Int) :
    SameDragged frames (entityInteractions ms pe frames ppos nrk).1 := by
  rw [entityInteractions]
  split
  · rcases hf : findInteractFrom ppos frames.length frames with _ | i
    · exact SameDragged.refl _
    · dsimp only
      exact SameDragged_set frames i _ (interactFrame_dragged ppos nrk _)
  · exact SameDragged.refl _

theorem playerPhase_sameDragged (inp : Inp) (tm : Option Nat) (s : GState) :
    SameDragged s.frames (playerPhase inp tm s).frames := by
  rw [playerPhase]
  split
  · exact SameDragged.refl _
  · dsimp only
    exact (SolidAtOffset_sameDragged s.frames s.player.pos tm ⟨0, 1⟩ false).trans
      (positionUpdate_sameDragged _ tm _ _ _)

theorem tickWorldPhase_sameDragged (inp : Inp) (s5 : GState) :
    SameDragged s5.frames (tickWorldPhase inp s5).frames := by
  rw [tickWorldPhase]
  dsimp only
  rw [deathBoundsPhase_frames]
  refine SameDragged.trans ?_ (playerPhase_sameDragged inp _ _)
  dsimp only
  refine SameDragged.trans ?_ (entityInteractions_sameDragged _ _ _ _ _)
  rw [occlusionPass]
  exact occlusionGo_sameDragged _ _ s5.frames 0 Option.none false

theorem initEntityGo_dragged (es : List SpawnedEntity) :
    ∀ (ch : Char) (f : Frame) (pl : Option IVec2) (f1 : Frame) (sp : Option IVec2),
      initEntityGo es ch f pl = .ok (f1, sp) → f1.dragged = f.dragged := by
  induction es with
  | nil =>
    intro ch f pl f1 sp h
    simp [initEntityGo] at h
    rw [← h.1]
  | cons e rest ih =>
    intro ch f pl f1 sp h
    rcases hm : findMarker f.type ch with _ | xy
    · simp [initEntityGo, hm] at h
    · cases e <;>
        · simp only [initEntityGo, hm] at h
          have := ih _ _ _ _ _ h
          simpa using this

theorem initFramesGo_sameDragged :
    ∀ (frames : List Frame) (pl : Option IVec2) (fr : List Frame) (sp : Option IVec2),
      initFramesGo frames pl = .ok (fr, sp) → SameDragged frames fr := by
  intro frames
  induction frames with
  | nil =>
    intro pl fr sp h
    cases h
    exact SameDragged.refl _
  | cons f rest ih =>
    intro pl fr sp h
    rw [initFramesGo] at h
    split at h
    · cases h
    · rename_i f1 pl1 heq1
      split at h
      · cases h
      · rename_i pr heq2
        cases h
        have hdr : f1.dragged = f.dragged := by
          rw [InitEntityFromSpecificFrame] at heq1
          have hd := initEntityGo_dragged _ _ _ _ _ _ heq1
          exact hd
        have hrest := ih _ _ _ heq2
        refine ⟨by simp [hrest.1], fun j => ?_⟩
        rcases j with _ | j
        · simpa using hdr
        · simpa using hrest.2 j

/-- Witness for C9 at a concrete frame and pixel. -/
theorem c9_query_assert_unreachable_witness :
    (solidTileFrameAt ⟨0, 16⟩).queryHitsAssert ⟨0, 8⟩ = false ∧
    ((solidTileFrameAt ⟨0, 16⟩).WorldPixelIsInRect ⟨0, 8⟩ = true →
      ((solidTileFrameAt ⟨0, 16⟩).type.charAt ((solidTileFrameAt ⟨0, 16⟩).tileCoord ⟨0, 8⟩).x
        ((solidTileFrameAt ⟨0, 16⟩).tileCoord ⟨0, 8⟩).y).isSome = true) :=
  c9_query_assert_unreachable (solidTileFrameAt ⟨0, 16⟩) (by decide) ⟨0, 8⟩


/-- If the LAST frame is dragged, the hover scan resolves it immediately. -/
theorem hoverResolution_dragged_some (rh w : Bool) (mpos : IVec2)
    (frames : List Frame) (hne : 0 < frames.length)
    (hdr : (frames.getD (frames.length - 1) default).dragged = true) :
    (hoverResolution rh w mpos frames).2 = some (frames.length - 1) := by
  obtain ⟨n, hn⟩ : ∃ n, frames.length = n + 1 := ⟨frames.length - 1, by omega⟩
  have hdr' : (frames.getD n default).dragged = true := by
    rw [hn] at hdr
    simpa using hdr
  rw [hoverResolution, hn, hoverScanFrom]
  dsimp only
  rw [if_pos (show (!false && ((frames.getD n default).dragged ||
      (!rh && (frames.getD n default).WorldPixelIsInRect mpos && !w))) = true by
    rw [hdr']; rfl)]
  rw [Nat.add_sub_cancel]

/-- The dragging block preserves the drag invariant, provided the hover index
points at the dragged frame whenever one exists. -/
theorem dragPhase_inv (m : Mouse) (winning ms pexists dal : Bool)
    (hidx : Option Nat) (player : Player) (frames0 : List Frame) (out : DragOut)
    (hInv : DragInv frames0)
    (hd : frames0.any (·.dragged) = true → hidx = some (frames0.length - 1))
    (h : dragPhase m winning ms pexists dal hidx player frames0 = .ok out) :
    DragInv out.frames := by
  rw [dragPhase] at h
  dsimp only at h
  by_cases hstart : (m.IsPressed && hidx.isSome && !winning) = true
  · simp only [if_pos hstart] at h
    have hInv1 : DragInv (updateBack (promoteToBack frames0 (hidx.getD 0)) fun f =>
        { f with dragged := true, drag_offset_relative_to_mouse := f.pos - m.pos }) := by
      by_cases hany : frames0.any (·.dragged) = true
      · have hidx_eq := hd hany
        have hne : 0 < frames0.length := by
          obtain ⟨j, hj, _⟩ := (any_dragged_iff frames0).mp hany
          omega
        rw [hidx_eq]
        simp only [Option.getD_some]
        rw [promoteToBack_last frames0 hne]
        exact DragInv_updateBack _ _ hInv
      · have hall : ∀ f ∈ frames0, f.dragged = false := by
          intro f hf
          cases hfd : f.dragged
          · rfl
          · exact absurd (List.any_eq_true.mpr ⟨f, hf, hfd⟩) hany
        exact DragInv_updateBack _ _ (DragInv_of_all_false _
          (fun x hx => hall x (mem_promoteToBack _ _ _ hx)))
    split at h
    · split at h
      · split at h
        · split at h
          · cases h
          · cases h
            dsimp only
            exact DragInv_set_last _ _ (DragInv_updateBack _ _ (DragInv_updateBack _ _ hInv1))
        · cases h
          dsimp only
          exact DragInv_updateBack _ _ (DragInv_updateBack _ _ hInv1)
      · cases h
        dsimp only
        exact DragInv_updateBack _ _ hInv1
    · split at h
      · split at h
        · split at h
          · cases h
          · cases h
            dsimp only
            exact DragInv_set_last _ _ (DragInv_updateBack _ _ hInv1)
        · cases h
          dsimp only
          exact DragInv_updateBack _ _ hInv1
      · cases h
        dsimp only
        exact hInv1
  · simp only [if_neg hstart] at h
    split at h
    · split at h
      · split at h
        · split at h
          · cases h
          · cases h
            dsimp only
            exact DragInv_set_last _ _ (DragInv_updateBack _ _ (DragInv_updateBack _ _ hInv))
        · cases h
          dsimp only
          exact DragInv_updateBack _ _ (DragInv_updateBack _ _ hInv)
      · cases h
        dsimp only
        exact DragInv_updateBack _ _ hInv
    · split at h
      · split at h
        · split at h
          · cases h
          · cases h
            dsimp only
            exact DragInv_set_last _ _ (DragInv_updateBack _ _ hInv)
        · cases h
          dsimp only
          exact DragInv_updateBack _ _ hInv
      · cases h
        dsimp only
        exact hInv

/-- No frame of the static level table starts out dragged. -/
theorem levels_not_dragged :
    levels.all (fun lv => lv.frames.all (fun f => !f.dragged)) = true := by decide

theorem RestartLevel_inv (s s' : GState) (hInv : DragInv s.frames)
    (h : RestartLevel s = some s') : DragInv s'.frames := by
  rw [RestartLevel] at h
  split at h
  · cases h
  · rename_i fr sp hres
    cases h
    dsimp only
    exact DragInv_congr _ _ (initFramesGo_sameDragged _ _ _ _ hres) hInv

theorem LoadLevelData_inv (s s' : GState) (h : LoadLevelData s = some s') :
    DragInv s'.frames := by
  rw [LoadLevelData] at h
  split at h
  · cases h
  · rename_i lv hlv
    split at h
    · cases h
    · rename_i fr sp hres
      cases h
      dsimp only
      refine DragInv_congr _ _ (initFramesGo_sameDragged _ _ _ _ hres) ?_
      refine DragInv_of_all_false _ ?_
      intro f hf
      have hmemlv : lv ∈ levels := List.get?_mem hlv
      have h1 := List.all_eq_true.mp levels_not_dragged lv hmemlv
      have h2 := List.all_eq_true.mp h1 f hf
      simpa using h2

theorem deathTimerPhase_inv (s s' : GState) (hInv : DragInv s.frames)
    (h : deathTimerPhase s = some s') : DragInv s'.frames := by
  rw [deathTimerPhase] at h
  dsimp only at h
  split at h
  · split at h
    · split at h
      · split at h
        · cases h
        · exact LoadLevelData_inv _ _ h
      · exact RestartLevel_inv _ _ hInv h
    · cases h
      dsimp only
      exact hInv
  · cases h
    exact hInv

theorem tickFramePhase_inv (inp : Inp) (s s4 : GState) (hInv : DragInv s.frames)
    (h : tickFramePhase inp s = .ok s4) : DragInv s4.frames := by
  rw [tickFramePhase] at h
  rw [frameClickDeathPhase_frames, resetButtonPhase_frames] at h
  split at h
  · cases h
  · rename_i d hdp
    cases h
    dsimp only
    refine dragPhase_inv _ _ _ _ _ _ _ _ _ ?_ ?_ hdp
    · refine DragInv_congr _ _ ?_ hInv
      exact (hoverScanFrom_sameDragged _ _ _ _ _ _).trans (map_hoverTimeStep_sameDragged _)
    · intro hany
      have hsd : SameDragged s.frames
          ((hoverResolution (frameClickDeathPhase inp (resetButtonPhase inp s)).reset_button_hovered
            (frameClickDeathPhase inp (resetButtonPhase inp s)).winning_fade_out
            inp.mouse.pos s.frames).1.map hoverTimeStep) :=
        (hoverScanFrom_sameDragged _ _ _ _ _ _).trans (map_hoverTimeStep_sameDragged _)
      have hany' : s.frames.any (·.dragged) = true := by
        rw [SameDragged_any _ _ hsd] at hany
        exact hany
      obtain ⟨j, hj, hdj⟩ := (any_dragged_iff _).mp hany'
      have hjl := hInv j hj hdj
      rw [hjl] at hdj
      have hne : 0 < s.frames.length := by omega
      rw [hsd.1]
      exact hoverResolution_dragged_some _ _ _ _ hne hdj

/-- C10: at most one dragged frame, always at the back of the list, is an
invariant of the tick: drag start rotates the pressed frame to the back before
marking it dragged, and every other phase only clears or keeps flags. -/
theorem c10_drag_invariant (inp : Inp) (s s' : GState)
    (hInv : DragInv s.frames) (h : TickModel inp s = some s') :
    DragInv s'.frames := by
  rw [TickModel] at h
  split at h
  · cases h
  · rename_i s5 hok
    exact deathTimerPhase_inv _ _
      (DragInv_congr _ _ (tickWorldPhase_sameDragged inp s5)
        (tickFramePhase_inv inp s s5 hInv hok)) h

/-- Witness for C10 on a concrete two-frame state. -/
theorem c10_drag_invariant_witness :
    (TickModel
        ⟨⟨⟨-200, -130⟩, false, false⟩,
         ⟨⟨false, false⟩, ⟨false, false⟩, ⟨false, false⟩, ⟨false, false⟩⟩⟩
        ⟨[emptyTileFrameAt ⟨0, 0⟩, solidTileFrameAt ⟨40, 0⟩], 0, false,
          { defaultPlayer with exists_ := true }, false, false, 0, false⟩).elim True
      fun s' => DragInv s'.frames := by
  rcases hEq : TickModel
      ⟨⟨⟨-200, -130⟩, false, false⟩,
       ⟨⟨false, false⟩, ⟨false, false⟩, ⟨false, false⟩, ⟨false, false⟩⟩⟩
      ⟨[emptyTileFrameAt ⟨0, 0⟩, solidTileFrameAt ⟨40, 0⟩], 0, false,
        { defaultPlayer with exists_ := true }, false, false, 0, false⟩ with _ | s'
  · exact trivial
  · exact c10_drag_invariant _ _ s' (DragInv_of_all_false _ (by decide)) hEq

end LD57
